import Mathlib

/-!
Verification of the portfolio-tracker insights engine.

Shallow embedding of:
* the debt payoff simulator `estimatePayoffMonths` (character-identical in
  `src/main/services/insightsEngine.ts` (= `src/unnamed/part_011`) and
  `src/web/services/insightsEngine.ts`),
* the two insight-engine copies `generateInsights` (main process) and
  `computeInsights` (browser),
* the supporting data model from `src/renderer/types/models.ts`.

Numbers are modelled as exact rationals (`ℚ`).  `Date.now()` and `Math.pow`
(the latter used only with a fractional exponent for the annualized return)
are environment functions and are passed in as parameters `now` / `rpow`.
-/

/-- Simulator-internal per-debt state: the parallel arrays `balances`,
`rates` (already divided by 100 and 12) and `mins` of
`estimatePayoffMonths`, zipped into one record. -/
structure SimDebt where
  balance : ℚ
  monthlyRate : ℚ
  minPayment : ℚ
  deriving DecidableEq

/-- Interest accrual, `balances[i] += balances[i] * rates[i]` for every debt with positive
balance (the interest-accrual loop of `estimatePayoffMonths`). -/
def accrueInterest (ds : List SimDebt) : List SimDebt :=
  ds.map fun d =>
    if 0 < d.balance then { d with balance := d.balance + d.balance * d.monthlyRate } else d

/-- Step 1 of the monthly loop of `estimatePayoffMonths`: pay
`min(mins[i], balances[i], budget)` on each debt with positive balance,
in order, decrementing the shared budget; returns the new balances and
the leftover budget. -/
def payMinimums : List SimDebt → ℚ → List SimDebt × ℚ
  | [], budget => ([], budget)
  | d :: ds, budget =>
    if d.balance ≤ 0 then
      let r := payMinimums ds budget
      (d :: r.1, r.2)
    else
      let pay := min (min d.minPayment d.balance) budget
      let r := payMinimums ds (budget - pay)
      ({ d with balance := d.balance - pay } :: r.1, r.2)

/-- Step 2 of the monthly loop of `estimatePayoffMonths`: the whole
leftover budget goes to the first debt with positive balance (then
`break`). -/
def payExtra : List SimDebt → ℚ → List SimDebt
  | [], _ => []
  | d :: ds, budget =>
    if d.balance ≤ 0 then d :: payExtra ds budget
    else { d with balance := d.balance - min d.balance budget } :: ds

/-- One month of the simulation: accrue interest, pay minimums, then pay
the extra if any budget is left (`if (budget > 0)` in the source). -/
def monthStep (payment : ℚ) (ds : List SimDebt) : List SimDebt :=
  let paid := payMinimums (accrueInterest ds) payment
  if 0 < paid.2 then payExtra paid.1 paid.2 else paid.1

/-- Remaining total, `balances.reduce((s, b) => s + Math.max(b, 0), 0)`. -/
def totalRemaining (ds : List SimDebt) : ℚ :=
  (ds.map fun d => max d.balance 0).sum

/-- The `while (months < MAX_MONTHS)` loop of `estimatePayoffMonths`,
with the remaining iteration allowance as fuel; returns the number of
months simulated before the `totalRemaining <= 0.01` break (or the cap). -/
def simLoop (payment : ℚ) : Nat → List SimDebt → Nat
  | 0, _ => 0
  | fuel + 1, ds =>
    if totalRemaining ds ≤ 1 / 100 then 0
    else 1 + simLoop payment fuel (monthStep payment ds)

/-- The `{name, balance, rate, minimumPayment}` items handed to the
simulator (and listed in a `DebtPayoffPlan.order`). -/
structure PayoffItem where
  name : String
  balance : ℚ
  rate : ℚ
  minimumPayment : ℚ
  deriving DecidableEq

/-- Initialisation of the `balances`/`rates`/`mins` arrays of `estimatePayoffMonths`
(`rates[i] = debts[i].rate / 100 / 12`). -/
def toSimDebts (debts : List PayoffItem) : List SimDebt :=
  debts.map fun d => ⟨d.balance, d.rate / 100 / 12, d.minimumPayment⟩

/-- The simulator `estimatePayoffMonths` (identical in both engine copies):
returns 0 when there are no debts or the budget is ≤ 0, otherwise runs
the monthly loop with the 600-month cap. -/
def estimatePayoffMonths (debts : List PayoffItem) (totalMonthlyPayment : ℚ) : Nat :=
  if debts.isEmpty ∨ totalMonthlyPayment ≤ 0 then 0
  else simLoop totalMonthlyPayment 600 (toSimDebts debts)

/-!
## Data model (`src/renderer/types/models.ts`)

Only the fields the insights engines read are modelled; identifiers,
addresses, notes and similar display-only fields are elided.  `createdAt`
is modelled directly as the numeric timestamp in milliseconds that
`new Date(st.createdAt).getTime()` produces.
-/

structure RealEstateHolding where
  estimatedValue : ℚ
  mortgageBalance : ℚ
  monthlyMortgagePayment : Option ℚ
  deriving DecidableEq

structure StockHolding where
  shares : ℚ
  costBasisPerShare : ℚ
  currentPrice : Option ℚ
  createdAt : ℚ
  deriving DecidableEq

structure CryptoHolding where
  quantity : ℚ
  costBasisPerUnit : ℚ
  currentPrice : Option ℚ
  deriving DecidableEq

structure RetirementAccount where
  balance : ℚ
  deriving DecidableEq

structure DebtLiability where
  name : String
  debtType : String
  currentBalance : ℚ
  interestRate : ℚ
  minimumPayment : ℚ
  monthlyPayment : Option ℚ
  deriving DecidableEq

/-- An emitted insight.  The `id` counter and the locale-formatted
`title`/`description`/`impact` strings (built with `Intl.NumberFormat`)
are elided; `names` records the list of debt names that the rule
interpolates into its text (empty for rules that name no debts). -/
structure Insight where
  category : String
  severity : String
  names : List String
  deriving DecidableEq

structure Metrics where
  totalAssets : ℚ
  totalDebts : ℚ
  netWorth : ℚ
  debtToAssetRatio : ℚ
  weightedAvgDebtRate : ℚ
  monthlyDebtPayments : ℚ
  highInterestDebtTotal : ℚ
  goodDebtTotal : ℚ
  badDebtTotal : ℚ
  goodDebtMonthly : ℚ
  badDebtMonthly : ℚ
  deriving DecidableEq

structure DebtPayoffPlan where
  method : String
  order : List PayoffItem
  totalMonthlyMinimum : ℚ
  monthsToPayoff : Nat
  deriving DecidableEq

structure PayoffPair where
  avalanche : DebtPayoffPlan
  snowball : DebtPayoffPlan
  deriving DecidableEq

/-- The report (`generatedAt` timestamp elided). -/
structure InsightsReport where
  insights : List Insight
  debtPayoff : Option PayoffPair
  metrics : Metrics
  deriving DecidableEq

/-!
## Browser engine copy (`src/web/services/insightsEngine.ts`)

`Date.now()` and `Math.pow` (used only for the annualized-return estimate,
with a fractional exponent) are environment functions; they enter as the
parameters `now` and `rpow`.
-/

namespace Web

def isGoodDebt (debtType : String) (interestRate : ℚ) : Bool :=
  if debtType = "mortgage" then true
  else if debtType = "student_loan" ∧ interestRate ≤ 7 then true
  else false

def totalRealEstateEquity (re : List RealEstateHolding) : ℚ :=
  (re.map fun p => p.estimatedValue - p.mortgageBalance).sum

def totalStocks (s : List StockHolding) : ℚ :=
  (s.map fun st => st.shares * (st.currentPrice.getD st.costBasisPerShare)).sum

def totalCrypto (c : List CryptoHolding) : ℚ :=
  (c.map fun x => x.quantity * (x.currentPrice.getD x.costBasisPerUnit)).sum

def totalRetirement (r : List RetirementAccount) : ℚ :=
  (r.map fun x => x.balance).sum

def totalAssets (re : List RealEstateHolding) (s : List StockHolding)
    (c : List CryptoHolding) (r : List RetirementAccount) : ℚ :=
  totalRealEstateEquity re + totalStocks s + totalCrypto c + totalRetirement r

def totalMortgageBalances (re : List RealEstateHolding) : ℚ :=
  (re.map fun p => p.mortgageBalance).sum

def monthlyMortgagePayments (re : List RealEstateHolding) : ℚ :=
  (re.map fun p => p.monthlyMortgagePayment.getD 0).sum

def totalDebtsOnly (d : List DebtLiability) : ℚ :=
  (d.map fun x => x.currentBalance).sum

def totalDebts (d : List DebtLiability) : ℚ := totalDebtsOnly d

def totalAllObligations (re : List RealEstateHolding) (d : List DebtLiability) : ℚ :=
  totalDebtsOnly d + totalMortgageBalances re

def netWorth (re : List RealEstateHolding) (s : List StockHolding)
    (c : List CryptoHolding) (r : List RetirementAccount) (d : List DebtLiability) : ℚ :=
  totalAssets re s c r - totalDebts d

def badDebts (d : List DebtLiability) : List DebtLiability :=
  d.filter fun x => !(isGoodDebt x.debtType x.interestRate)

def goodDebtsFromTable (d : List DebtLiability) : List DebtLiability :=
  d.filter fun x => isGoodDebt x.debtType x.interestRate

def badDebtTotal (d : List DebtLiability) : ℚ :=
  ((badDebts d).map fun x => x.currentBalance).sum

def goodDebtTotal (re : List RealEstateHolding) (d : List DebtLiability) : ℚ :=
  ((goodDebtsFromTable d).map fun x => x.currentBalance).sum + totalMortgageBalances re

def badDebtMonthly (d : List DebtLiability) : ℚ :=
  ((badDebts d).map fun x => x.monthlyPayment.getD x.minimumPayment).sum

def goodDebtMonthly (re : List RealEstateHolding) (d : List DebtLiability) : ℚ :=
  ((goodDebtsFromTable d).map fun x => x.monthlyPayment.getD x.minimumPayment).sum
    + monthlyMortgagePayments re

def totalAllDebtBalance (re : List RealEstateHolding) (d : List DebtLiability) : ℚ :=
  totalDebtsOnly d + totalMortgageBalances re

def debtWeightedSum (d : List DebtLiability) : ℚ :=
  (d.map fun x => x.interestRate * x.currentBalance).sum

def mortgageWeightedSum (re : List RealEstateHolding) : ℚ :=
  totalMortgageBalances re * 6

def weightedAvgDebtRate (re : List RealEstateHolding) (d : List DebtLiability) : ℚ :=
  if 0 < totalAllDebtBalance re d then
    (debtWeightedSum d + mortgageWeightedSum re) / totalAllDebtBalance re d
  else 0

def monthlyDebtPayments (re : List RealEstateHolding) (d : List DebtLiability) : ℚ :=
  (d.map fun x => x.monthlyPayment.getD x.minimumPayment).sum + monthlyMortgagePayments re

def highInterestDebts (d : List DebtLiability) : List DebtLiability :=
  d.filter fun x => 10 ≤ x.interestRate

def highInterestDebtTotal (d : List DebtLiability) : ℚ :=
  ((highInterestDebts d).map fun x => x.currentBalance).sum

def debtToAssetRatio (re : List RealEstateHolding) (s : List StockHolding)
    (c : List CryptoHolding) (r : List RetirementAccount) (d : List DebtLiability) : ℚ :=
  if 0 < totalAssets re s c r then totalAllObligations re d / totalAssets re s c r else 0

/-- Good-vs-bad debt overview rule. -/
def overviewInsights (re : List RealEstateHolding) (d : List DebtLiability) : List Insight :=
  if 0 < totalAllObligations re d then
    if 0 < badDebtTotal d ∧ 0 < goodDebtTotal re d then
      [⟨"debt_payoff", if goodDebtTotal re d < badDebtTotal d then "warning" else "info", []⟩]
    else if 0 < badDebtTotal d then
      [⟨"debt_payoff", "warning", []⟩]
    else if 0 < goodDebtTotal re d ∧ badDebtTotal d = 0 then
      [⟨"debt_payoff", "positive", []⟩]
    else []
  else []

/-- High-interest-debt rule (`interestRate >= 10`). -/
def highInterestInsights (re : List RealEstateHolding) (s : List StockHolding)
    (c : List CryptoHolding) (r : List RetirementAccount) (d : List DebtLiability) : List Insight :=
  if 0 < highInterestDebtTotal d then
    [⟨"debt_payoff",
      if totalAssets re s c r * (1/10) < highInterestDebtTotal d then "critical" else "warning",
      (highInterestDebts d).map fun x => x.name⟩]
  else []

/-- The filter `debts.filter(d => d.monthlyPayment && d.monthlyPayment <= d.minimumPayment * 1.05)`
(the `&&` makes an absent or zero `monthlyPayment` fail the filter). -/
def minOnlyDebts (d : List DebtLiability) : List DebtLiability :=
  d.filter fun x =>
    match x.monthlyPayment with
    | some mp => decide (mp ≠ 0 ∧ mp ≤ x.minimumPayment * (105/100))
    | none => false

/-- Minimum-payment-only rule. -/
def minOnlyInsights (d : List DebtLiability) : List Insight :=
  if 0 < (minOnlyDebts d).length then
    [⟨"cash_flow", "warning", (minOnlyDebts d).map fun x => x.name⟩]
  else []

def annualInterest (d : List DebtLiability) : ℚ :=
  (d.map fun x => x.currentBalance * x.interestRate / 100).sum

/-- Annual-interest-cost rule. -/
def annualInterestInsights (d : List DebtLiability) : List Insight :=
  if 0 < annualInterest d then
    [⟨"debt_payoff", if 2000 < annualInterest d then "warning" else "info", []⟩]
  else []

/-- The three rules gated on `debts.length > 0`. -/
def debtBlockInsights (re : List RealEstateHolding) (s : List StockHolding)
    (c : List CryptoHolding) (r : List RetirementAccount) (d : List DebtLiability) : List Insight :=
  if 0 < d.length then
    highInterestInsights re s c r d ++ minOnlyInsights d ++ annualInterestInsights d
  else []

def stockGains (s : List StockHolding) : ℚ :=
  (s.map fun st => (st.currentPrice.getD st.costBasisPerShare - st.costBasisPerShare) * st.shares).sum

def stockCostBasis (s : List StockHolding) : ℚ :=
  (s.map fun st => st.shares * st.costBasisPerShare).sum

/-- Earliest acquisition, `stocks.reduce((oldest, st) => ..., Date.now())`. -/
def oldestStockDate (now : ℚ) (s : List StockHolding) : ℚ :=
  s.foldl (fun oldest st => if st.createdAt < oldest then st.createdAt else oldest) now

/-- Milliseconds per year, `365.25 * 24 * 60 * 60 * 1000`. -/
def msPerYear : ℚ := (36525/100) * 24 * 60 * 60 * 1000

def holdingYears (now : ℚ) (s : List StockHolding) : ℚ :=
  max ((now - oldestStockDate now s) / msPerYear) 1

/-- Annualized return, `(Math.pow(1 + gains/cost, 1/years) - 1) * 100`, 0 when no cost basis;
`rpow` stands for `Math.pow`. -/
def annualizedReturnPct (rpow : ℚ → ℚ → ℚ) (now : ℚ) (s : List StockHolding) : ℚ :=
  if 0 < stockCostBasis s then
    (rpow (1 + stockGains s / stockCostBasis s) (1 / holdingYears now s) - 1) * 100
  else 0

def aboveReturnDebts (rpow : ℚ → ℚ → ℚ) (now : ℚ) (s : List StockHolding)
    (d : List DebtLiability) : List DebtLiability :=
  d.filter fun x => decide (annualizedReturnPct rpow now s < x.interestRate)

/-- Debts-costlier-than-returns leverage rule. -/
def leverageRateInsights (rpow : ℚ → ℚ → ℚ) (now : ℚ) (s : List StockHolding)
    (d : List DebtLiability) : List Insight :=
  if 0 < d.length ∧ 0 < annualizedReturnPct rpow now s then
    if 0 < (aboveReturnDebts rpow now s d).length then
      [⟨"leverage", "warning", (aboveReturnDebts rpow now s d).map fun x => x.name⟩]
    else []
  else []

def creditCards (d : List DebtLiability) : List DebtLiability :=
  d.filter fun x => decide (x.debtType = "credit_card" ∧ 0 < x.currentBalance)

/-- Credit-card-debt-while-investing rule. -/
def creditCardInsights (s : List StockHolding) (c : List CryptoHolding)
    (d : List DebtLiability) : List Insight :=
  if 0 < (creditCards d).length ∧ (0 < totalStocks s ∨ 0 < totalCrypto c) then
    [⟨"leverage", "critical", []⟩]
  else []

/-- The four-tier severity banding on the debt-to-asset ratio. -/
def ratioSeverity (ratio : ℚ) : String :=
  if ratio < 1/5 then "positive"
  else if ratio < 2/5 then "info"
  else if ratio < 3/5 then "warning"
  else "critical"

def ratioInsights (re : List RealEstateHolding) (s : List StockHolding)
    (c : List CryptoHolding) (r : List RetirementAccount) (d : List DebtLiability) : List Insight :=
  if 0 < debtToAssetRatio re s c r d then
    [⟨"portfolio_health", ratioSeverity (debtToAssetRatio re s c r d), []⟩]
  else []

def totalInvestable (s : List StockHolding) (c : List CryptoHolding)
    (r : List RetirementAccount) : ℚ :=
  totalStocks s + totalCrypto c + totalRetirement r

def cryptoPct (s : List StockHolding) (c : List CryptoHolding) (r : List RetirementAccount) : ℚ :=
  if 0 < totalInvestable s c r then totalCrypto c / totalInvestable s c r * 100 else 0

def stocksPct (s : List StockHolding) (c : List CryptoHolding) (r : List RetirementAccount) : ℚ :=
  if 0 < totalInvestable s c r then totalStocks s / totalInvestable s c r * 100 else 0

/-- Crypto/stock concentration rules. -/
def concentrationInsights (s : List StockHolding) (c : List CryptoHolding)
    (r : List RetirementAccount) : List Insight :=
  if 0 < totalInvestable s c r then
    (if 30 < cryptoPct s c r then [⟨"portfolio_health", "warning", []⟩] else []) ++
    (if 80 < stocksPct s c r then [⟨"portfolio_health", "info", []⟩] else [])
  else []

/-- Emergency-buffer rule. -/
def bufferInsights (re : List RealEstateHolding) (s : List StockHolding)
    (c : List CryptoHolding) (d : List DebtLiability) : List Insight :=
  if 0 < monthlyDebtPayments re d ∧ 0 < d.length then
    if (totalStocks s + totalCrypto c) / (monthlyDebtPayments re d * 2) < 3 then
      [⟨"cash_flow", "warning", []⟩]
    else []
  else []

/-- Debt-free positive rule (browser copy: category `opportunity`). -/
def debtFreeInsights (re : List RealEstateHolding) (s : List StockHolding)
    (c : List CryptoHolding) (r : List RetirementAccount) (d : List DebtLiability) : List Insight :=
  if 0 < netWorth re s c r d ∧ d.length = 0 then
    [⟨"opportunity", "positive", []⟩]
  else []

/-- Retirement-allocation positive rule. -/
def retirementInsights (re : List RealEstateHolding) (s : List StockHolding)
    (c : List CryptoHolding) (r : List RetirementAccount) (d : List DebtLiability) : List Insight :=
  if 0 < netWorth re s c r d ∧ 0 < totalRetirement r then
    if 20 ≤ totalRetirement r / totalAssets re s c r * 100 then
      [⟨"portfolio_health", "positive", []⟩]
    else []
  else []

def debtItems (d : List DebtLiability) : List PayoffItem :=
  d.map fun x => ⟨x.name, x.currentBalance, x.interestRate, x.minimumPayment⟩

def totalMin (d : List DebtLiability) : ℚ :=
  ((debtItems d).map fun x => x.minimumPayment).sum

/-- Avalanche order, `[...debtItems].sort((a, b) => b.rate - a.rate)` — stable descending-rate sort. -/
def avalancheOrder (d : List DebtLiability) : List PayoffItem :=
  (debtItems d).mergeSort fun a b => b.rate ≤ a.rate

/-- Snowball order, `[...debtItems].sort((a, b) => a.balance - b.balance)` — stable ascending-balance sort. -/
def snowballOrder (d : List DebtLiability) : List PayoffItem :=
  (debtItems d).mergeSort fun a b => a.balance ≤ b.balance

def buildDebtPayoff (d : List DebtLiability) : Option PayoffPair :=
  if 0 < d.length then
    some ⟨⟨"avalanche", avalancheOrder d, totalMin d,
            estimatePayoffMonths (avalancheOrder d) (totalMin d)⟩,
          ⟨"snowball", snowballOrder d, totalMin d,
            estimatePayoffMonths (snowballOrder d) (totalMin d)⟩⟩
  else none

def metricsOf (re : List RealEstateHolding) (s : List StockHolding)
    (c : List CryptoHolding) (r : List RetirementAccount) (d : List DebtLiability) : Metrics :=
  ⟨totalAssets re s c r, totalDebts d, netWorth re s c r d, debtToAssetRatio re s c r d,
   weightedAvgDebtRate re d, monthlyDebtPayments re d, highInterestDebtTotal d,
   goodDebtTotal re d, badDebtTotal d, goodDebtMonthly re d, badDebtMonthly d⟩

/-- The browser copy of `computeInsights`: the full report. -/
def computeInsights (rpow : ℚ → ℚ → ℚ) (now : ℚ) (re : List RealEstateHolding)
    (s : List StockHolding) (c : List CryptoHolding) (r : List RetirementAccount)
    (d : List DebtLiability) : InsightsReport :=
  ⟨overviewInsights re d ++ debtBlockInsights re s c r d ++
     leverageRateInsights rpow now s d ++ creditCardInsights s c d ++
     ratioInsights re s c r d ++ concentrationInsights s c r ++
     bufferInsights re s c d ++ debtFreeInsights re s c r d ++
     retirementInsights re s c r d,
   buildDebtPayoff d,
   metricsOf re s c r d⟩

end Web

/-!
## Main-process engine copy (`src/main/services/insightsEngine.ts`, i.e.
`src/unnamed/part_011`)

Identical logic except that it additionally evaluates three age-based
rules (the `age` setting, `parseInt(getSetting('age')) || null`, enters
as an `Option ℤ` parameter; JS truthiness makes `age = 0` behave like
`null`) and that its debt-free insight is pushed with
`category: 'positive' as Insight['category']` — a value outside the
declared category union.
-/

namespace Main

def isGoodDebt (debtType : String) (interestRate : ℚ) : Bool :=
  if debtType = "mortgage" then true
  else if debtType = "student_loan" ∧ interestRate ≤ 7 then true
  else false

def totalRealEstateEquity (re : List RealEstateHolding) : ℚ :=
  (re.map fun p => p.estimatedValue - p.mortgageBalance).sum

def totalStocks (s : List StockHolding) : ℚ :=
  (s.map fun st => st.shares * (st.currentPrice.getD st.costBasisPerShare)).sum

def totalCrypto (c : List CryptoHolding) : ℚ :=
  (c.map fun x => x.quantity * (x.currentPrice.getD x.costBasisPerUnit)).sum

def totalRetirement (r : List RetirementAccount) : ℚ :=
  (r.map fun x => x.balance).sum

def totalAssets (re : List RealEstateHolding) (s : List StockHolding)
    (c : List CryptoHolding) (r : List RetirementAccount) : ℚ :=
  totalRealEstateEquity re + totalStocks s + totalCrypto c + totalRetirement r

def totalMortgageBalances (re : List RealEstateHolding) : ℚ :=
  (re.map fun p => p.mortgageBalance).sum

def monthlyMortgagePayments (re : List RealEstateHolding) : ℚ :=
  (re.map fun p => p.monthlyMortgagePayment.getD 0).sum

def totalDebtsOnly (d : List DebtLiability) : ℚ :=
  (d.map fun x => x.currentBalance).sum

def totalDebts (d : List DebtLiability) : ℚ := totalDebtsOnly d

def totalAllObligations (re : List RealEstateHolding) (d : List DebtLiability) : ℚ :=
  totalDebtsOnly d + totalMortgageBalances re

def netWorth (re : List RealEstateHolding) (s : List StockHolding)
    (c : List CryptoHolding) (r : List RetirementAccount) (d : List DebtLiability) : ℚ :=
  totalAssets re s c r - totalDebts d

def badDebts (d : List DebtLiability) : List DebtLiability :=
  d.filter fun x => !(isGoodDebt x.debtType x.interestRate)

def goodDebtsFromTable (d : List DebtLiability) : List DebtLiability :=
  d.filter fun x => isGoodDebt x.debtType x.interestRate

def badDebtTotal (d : List DebtLiability) : ℚ :=
  ((badDebts d).map fun x => x.currentBalance).sum

def goodDebtTotal (re : List RealEstateHolding) (d : List DebtLiability) : ℚ :=
  ((goodDebtsFromTable d).map fun x => x.currentBalance).sum + totalMortgageBalances re

def badDebtMonthly (d : List DebtLiability) : ℚ :=
  ((badDebts d).map fun x => x.monthlyPayment.getD x.minimumPayment).sum

def goodDebtMonthly (re : List RealEstateHolding) (d : List DebtLiability) : ℚ :=
  ((goodDebtsFromTable d).map fun x => x.monthlyPayment.getD x.minimumPayment).sum
    + monthlyMortgagePayments re

def totalAllDebtBalance (re : List RealEstateHolding) (d : List DebtLiability) : ℚ :=
  totalDebtsOnly d + totalMortgageBalances re

def debtWeightedSum (d : List DebtLiability) : ℚ :=
  (d.map fun x => x.interestRate * x.currentBalance).sum

def mortgageWeightedSum (re : List RealEstateHolding) : ℚ :=
  totalMortgageBalances re * 6

def weightedAvgDebtRate (re : List RealEstateHolding) (d : List DebtLiability) : ℚ :=
  if 0 < totalAllDebtBalance re d then
    (debtWeightedSum d + mortgageWeightedSum re) / totalAllDebtBalance re d
  else 0

def monthlyDebtPayments (re : List RealEstateHolding) (d : List DebtLiability) : ℚ :=
  (d.map fun x => x.monthlyPayment.getD x.minimumPayment).sum + monthlyMortgagePayments re

def highInterestDebts (d : List DebtLiability) : List DebtLiability :=
  d.filter fun x => 10 ≤ x.interestRate

def highInterestDebtTotal (d : List DebtLiability) : ℚ :=
  ((highInterestDebts d).map fun x => x.currentBalance).sum

def debtToAssetRatio (re : List RealEstateHolding) (s : List StockHolding)
    (c : List CryptoHolding) (r : List RetirementAccount) (d : List DebtLiability) : ℚ :=
  if 0 < totalAssets re s c r then totalAllObligations re d / totalAssets re s c r else 0

def overviewInsights (re : List RealEstateHolding) (d : List DebtLiability) : List Insight :=
  if 0 < totalAllObligations re d then
    if 0 < badDebtTotal d ∧ 0 < goodDebtTotal re d then
      [⟨"debt_payoff", if goodDebtTotal re d < badDebtTotal d then "warning" else "info", []⟩]
    else if 0 < badDebtTotal d then
      [⟨"debt_payoff", "warning", []⟩]
    else if 0 < goodDebtTotal re d ∧ badDebtTotal d = 0 then
      [⟨"debt_payoff", "positive", []⟩]
    else []
  else []

def highInterestInsights (re : List RealEstateHolding) (s : List StockHolding)
    (c : List CryptoHolding) (r : List RetirementAccount) (d : List DebtLiability) : List Insight :=
  if 0 < highInterestDebtTotal d then
    [⟨"debt_payoff",
      if totalAssets re s c r * (1/10) < highInterestDebtTotal d then "critical" else "warning",
      (highInterestDebts d).map fun x => x.name⟩]
  else []

def minOnlyDebts (d : List DebtLiability) : List DebtLiability :=
  d.filter fun x =>
    match x.monthlyPayment with
    | some mp => decide (mp ≠ 0 ∧ mp ≤ x.minimumPayment * (105/100))
    | none => false

def minOnlyInsights (d : List DebtLiability) : List Insight :=
  if 0 < (minOnlyDebts d).length then
    [⟨"cash_flow", "warning", (minOnlyDebts d).map fun x => x.name⟩]
  else []

def annualInterest (d : List DebtLiability) : ℚ :=
  (d.map fun x => x.currentBalance * x.interestRate / 100).sum

def annualInterestInsights (d : List DebtLiability) : List Insight :=
  if 0 < annualInterest d then
    [⟨"debt_payoff", if 2000 < annualInterest d then "warning" else "info", []⟩]
  else []

def debtBlockInsights (re : List RealEstateHolding) (s : List StockHolding)
    (c : List CryptoHolding) (r : List RetirementAccount) (d : List DebtLiability) : List Insight :=
  if 0 < d.length then
    highInterestInsights re s c r d ++ minOnlyInsights d ++ annualInterestInsights d
  else []

def stockGains (s : List StockHolding) : ℚ :=
  (s.map fun st => (st.currentPrice.getD st.costBasisPerShare - st.costBasisPerShare) * st.shares).sum

def stockCostBasis (s : List StockHolding) : ℚ :=
  (s.map fun st => st.shares * st.costBasisPerShare).sum

def oldestStockDate (now : ℚ) (s : List StockHolding) : ℚ :=
  s.foldl (fun oldest st => if st.createdAt < oldest then st.createdAt else oldest) now

def msPerYear : ℚ := (36525/100) * 24 * 60 * 60 * 1000

def holdingYears (now : ℚ) (s : List StockHolding) : ℚ :=
  max ((now - oldestStockDate now s) / msPerYear) 1

def annualizedReturnPct (rpow : ℚ → ℚ → ℚ) (now : ℚ) (s : List StockHolding) : ℚ :=
  if 0 < stockCostBasis s then
    (rpow (1 + stockGains s / stockCostBasis s) (1 / holdingYears now s) - 1) * 100
  else 0

def aboveReturnDebts (rpow : ℚ → ℚ → ℚ) (now : ℚ) (s : List StockHolding)
    (d : List DebtLiability) : List DebtLiability :=
  d.filter fun x => decide (annualizedReturnPct rpow now s < x.interestRate)

def leverageRateInsights (rpow : ℚ → ℚ → ℚ) (now : ℚ) (s : List StockHolding)
    (d : List DebtLiability) : List Insight :=
  if 0 < d.length ∧ 0 < annualizedReturnPct rpow now s then
    if 0 < (aboveReturnDebts rpow now s d).length then
      [⟨"leverage", "warning", (aboveReturnDebts rpow now s d).map fun x => x.name⟩]
    else []
  else []

def creditCards (d : List DebtLiability) : List DebtLiability :=
  d.filter fun x => decide (x.debtType = "credit_card" ∧ 0 < x.currentBalance)

def creditCardInsights (s : List StockHolding) (c : List CryptoHolding)
    (d : List DebtLiability) : List Insight :=
  if 0 < (creditCards d).length ∧ (0 < totalStocks s ∨ 0 < totalCrypto c) then
    [⟨"leverage", "critical", []⟩]
  else []

def ratioSeverity (ratio : ℚ) : String :=
  if ratio < 1/5 then "positive"
  else if ratio < 2/5 then "info"
  else if ratio < 3/5 then "warning"
  else "critical"

def ratioInsights (re : List RealEstateHolding) (s : List StockHolding)
    (c : List CryptoHolding) (r : List RetirementAccount) (d : List DebtLiability) : List Insight :=
  if 0 < debtToAssetRatio re s c r d then
    [⟨"portfolio_health", ratioSeverity (debtToAssetRatio re s c r d), []⟩]
  else []

def totalInvestable (s : List StockHolding) (c : List CryptoHolding)
    (r : List RetirementAccount) : ℚ :=
  totalStocks s + totalCrypto c + totalRetirement r

def cryptoPct (s : List StockHolding) (c : List CryptoHolding) (r : List RetirementAccount) : ℚ :=
  if 0 < totalInvestable s c r then totalCrypto c / totalInvestable s c r * 100 else 0

def stocksPct (s : List StockHolding) (c : List CryptoHolding) (r : List RetirementAccount) : ℚ :=
  if 0 < totalInvestable s c r then totalStocks s / totalInvestable s c r * 100 else 0

def concentrationInsights (s : List StockHolding) (c : List CryptoHolding)
    (r : List RetirementAccount) : List Insight :=
  if 0 < totalInvestable s c r then
    (if 30 < cryptoPct s c r then [⟨"portfolio_health", "warning", []⟩] else []) ++
    (if 80 < stocksPct s c r then [⟨"portfolio_health", "info", []⟩] else [])
  else []

def bufferInsights (re : List RealEstateHolding) (s : List StockHolding)
    (c : List CryptoHolding) (d : List DebtLiability) : List Insight :=
  if 0 < monthlyDebtPayments re d ∧ 0 < d.length then
    if (totalStocks s + totalCrypto c) / (monthlyDebtPayments re d * 2) < 3 then
      [⟨"cash_flow", "warning", []⟩]
    else []
  else []

/-- Years-to-retirement age rule (`if (age && totalRetirement > 0)`). -/
def ageRetirementInsights (r : List RetirementAccount) (age : Option ℤ) : List Insight :=
  match age with
  | none => []
  | some a =>
    if a ≠ 0 ∧ 0 < totalRetirement r then
      if 0 < max (65 - a) 0 then [⟨"portfolio_health", "info", []⟩] else []
    else []

/-- Age-appropriate crypto-allocation rule (`age < 35`). -/
def ageCryptoInsights (s : List StockHolding) (c : List CryptoHolding)
    (r : List RetirementAccount) (age : Option ℤ) : List Insight :=
  match age with
  | none => []
  | some a =>
    if a ≠ 0 ∧ a < 35 ∧ 0 < totalCrypto c ∧ cryptoPct s c r ≤ 30 then
      if 0 < totalStocks s + totalCrypto c + totalRetirement r then
        if 5 < totalCrypto c / (totalStocks s + totalCrypto c + totalRetirement r) * 100 ∧
            totalCrypto c / (totalStocks s + totalCrypto c + totalRetirement r) * 100 ≤ 25 then
          [⟨"portfolio_health", "positive", []⟩]
        else []
      else []
    else []

/-- High-equity-exposure age rule (`age >= 50`). -/
def ageEquityInsights (re : List RealEstateHolding) (s : List StockHolding)
    (c : List CryptoHolding) (r : List RetirementAccount) (age : Option ℤ) : List Insight :=
  match age with
  | none => []
  | some a =>
    if a ≠ 0 ∧ 50 ≤ a then
      if 80 < (if 0 < totalAssets re s c r then
          (totalCrypto c + totalStocks s) / totalAssets re s c r * 100 else 0) then
        [⟨"portfolio_health", "warning", []⟩]
      else []
    else []

/-- Debt-free positive rule — main-process copy: pushed with
`category: 'positive' as Insight['category']`. -/
def debtFreeInsights (re : List RealEstateHolding) (s : List StockHolding)
    (c : List CryptoHolding) (r : List RetirementAccount) (d : List DebtLiability) : List Insight :=
  if 0 < netWorth re s c r d ∧ d.length = 0 then
    [⟨"positive", "positive", []⟩]
  else []

def retirementInsights (re : List RealEstateHolding) (s : List StockHolding)
    (c : List CryptoHolding) (r : List RetirementAccount) (d : List DebtLiability) : List Insight :=
  if 0 < netWorth re s c r d ∧ 0 < totalRetirement r then
    if 20 ≤ totalRetirement r / totalAssets re s c r * 100 then
      [⟨"portfolio_health", "positive", []⟩]
    else []
  else []

def debtItems (d : List DebtLiability) : List PayoffItem :=
  d.map fun x => ⟨x.name, x.currentBalance, x.interestRate, x.minimumPayment⟩

def totalMin (d : List DebtLiability) : ℚ :=
  ((debtItems d).map fun x => x.minimumPayment).sum

def avalancheOrder (d : List DebtLiability) : List PayoffItem :=
  (debtItems d).mergeSort fun a b => b.rate ≤ a.rate

def snowballOrder (d : List DebtLiability) : List PayoffItem :=
  (debtItems d).mergeSort fun a b => a.balance ≤ b.balance

def buildDebtPayoff (d : List DebtLiability) : Option PayoffPair :=
  if 0 < d.length then
    some ⟨⟨"avalanche", avalancheOrder d, totalMin d,
            estimatePayoffMonths (avalancheOrder d) (totalMin d)⟩,
          ⟨"snowball", snowballOrder d, totalMin d,
            estimatePayoffMonths (snowballOrder d) (totalMin d)⟩⟩
  else none

def metricsOf (re : List RealEstateHolding) (s : List StockHolding)
    (c : List CryptoHolding) (r : List RetirementAccount) (d : List DebtLiability) : Metrics :=
  ⟨totalAssets re s c r, totalDebts d, netWorth re s c r d, debtToAssetRatio re s c r d,
   weightedAvgDebtRate re d, monthlyDebtPayments re d, highInterestDebtTotal d,
   goodDebtTotal re d, badDebtTotal d, goodDebtMonthly re d, badDebtMonthly d⟩

/-- The main-process copy, `generateInsights`: the full report, with the
repository reads replaced by the snapshot parameters and the `age`
setting passed in explicitly. -/
def generateInsights (rpow : ℚ → ℚ → ℚ) (now : ℚ) (re : List RealEstateHolding)
    (s : List StockHolding) (c : List CryptoHolding) (r : List RetirementAccount)
    (d : List DebtLiability) (age : Option ℤ) : InsightsReport :=
  ⟨overviewInsights re d ++ debtBlockInsights re s c r d ++
     leverageRateInsights rpow now s d ++ creditCardInsights s c d ++
     ratioInsights re s c r d ++ concentrationInsights s c r ++
     bufferInsights re s c d ++ ageRetirementInsights r age ++
     ageCryptoInsights s c r age ++ ageEquityInsights re s c r age ++
     debtFreeInsights re s c r d ++ retirementInsights re s c r d,
   buildDebtPayoff d,
   metricsOf re s c r d⟩

end Main

/-! ## Simulator lemmas -/

theorem simLoop_le_fuel (p : ℚ) : ∀ (fuel : Nat) (ds : List SimDebt), simLoop p fuel ds ≤ fuel
  | 0, _ => le_refl 0
  | fuel + 1, ds => by
    simp only [simLoop]
    split
    · exact Nat.zero_le _
    · have := simLoop_le_fuel p fuel (monthStep p ds)
      omega

theorem estimatePayoffMonths_le_600 (debts : List PayoffItem) (b : ℚ) :
    estimatePayoffMonths debts b ≤ 600 := by
  unfold estimatePayoffMonths
  split
  · exact Nat.zero_le _
  · exact simLoop_le_fuel b 600 (toSimDebts debts)

theorem simLoop_break (p : ℚ) (fuel : Nat) (ds : List SimDebt)
    (h : totalRemaining ds ≤ 1 / 100) : simLoop p fuel ds = 0 := by
  cases fuel with
  | zero => rfl
  | succ n => simp only [simLoop]; rw [if_pos h]

theorem simLoop_step (p : ℚ) (fuel : Nat) (ds : List SimDebt)
    (h : ¬ totalRemaining ds ≤ 1 / 100) :
    simLoop p (fuel + 1) ds = 1 + simLoop p fuel (monthStep p ds) := by
  simp only [simLoop]; rw [if_neg h]

/-- After one month, a single positive-balance debt stays a single debt with
the same rate and minimum, and at least `balance·(1 + rate) − payment`
remains (at most `payment` total is paid in a month). -/
theorem monthStep_singleton_lower (p bal r m : ℚ) (hbal : 0 < bal) (hp : 0 ≤ p) :
    ∃ bal', monthStep p [⟨bal, r, m⟩] = [⟨bal', r, m⟩] ∧ bal + bal * r - p ≤ bal' := by
  have haccr : accrueInterest [⟨bal, r, m⟩] = [⟨bal + bal * r, r, m⟩] := by
    simp [accrueInterest, hbal]
  set b1 := bal + bal * r with hb1
  by_cases h1 : b1 ≤ 0
  · -- no payment happens on an inactive debt
    have hpm : payMinimums [⟨b1, r, m⟩] p = ([⟨b1, r, m⟩], p) := by
      simp [payMinimums, h1]
    unfold monthStep
    rw [haccr, hpm]
    by_cases h2 : 0 < p
    · exact ⟨b1, by simp [payExtra, h1], by linarith⟩
    · exact ⟨b1, by simp [h2], by linarith⟩
  · push_neg at h1
    set pay := min (min m b1) p with hpay
    have hpayp : pay ≤ p := min_le_right _ _
    have hpm : payMinimums [⟨b1, r, m⟩] p = ([⟨b1 - pay, r, m⟩], p - pay) := by
      simp only [payMinimums]
      rw [if_neg (by linarith)]
    unfold monthStep
    rw [haccr, hpm]
    by_cases h2 : 0 < p - pay
    · rw [if_pos h2]
      by_cases h3 : b1 - pay ≤ 0
      · exact ⟨b1 - pay, by simp [payExtra, h3], by linarith⟩
      · refine ⟨b1 - pay - min (b1 - pay) (p - pay), ?_, ?_⟩
        · simp [payExtra, h3]
        · have := min_le_right (b1 - pay) (p - pay)
          linarith
    · rw [if_neg h2]
      exact ⟨b1 - pay, rfl, by linarith⟩

/-- Saturation: when the whole monthly budget is at most the interest that
one month accrues on the initial balance, the balance never drops, so the
loop spends all its fuel. -/
theorem simLoop_saturates (r m p b0 : ℚ) (hb0 : 1 / 100 < b0) (hp : 0 < p)
    (hpr : p ≤ b0 * r) :
    ∀ (fuel : Nat) (bal : ℚ), b0 ≤ bal → simLoop p fuel [⟨bal, r, m⟩] = fuel := by
  have hr : 0 < r := by
    rcases le_or_lt r 0 with h | h
    · nlinarith
    · exact h
  intro fuel
  induction fuel with
  | zero => intro bal _; rfl
  | succ n ih =>
    intro bal hbal
    have hbalpos : 0 < bal := by linarith
    have htot : ¬ totalRemaining [⟨bal, r, m⟩] ≤ 1 / 100 := by
      simp only [totalRemaining, List.map_cons, List.map_nil, List.sum_cons, List.sum_nil,
        add_zero]
      rw [max_eq_left (by linarith)]
      linarith
    rw [simLoop_step p n _ htot]
    obtain ⟨bal', hstep, hge⟩ := monthStep_singleton_lower p bal r m hbalpos (le_of_lt hp)
    rw [hstep, ih bal' (by nlinarith)]
    omega

/-- With a 0% debt of balance `m·k`, minimum `m` and budget `m`, each month
pays exactly `m`, so the loop runs exactly `k` months (for `m` above the
termination epsilon and enough fuel). -/
theorem simLoop_zero_rate_exact (m : ℚ) (hm : 1 / 100 < m) :
    ∀ (fuel k : Nat), k ≤ fuel → simLoop m fuel [⟨m * k, 0, m⟩] = k := by
  intro fuel
  induction fuel with
  | zero => intro k hk; interval_cases k; rfl
  | succ n ih =>
    intro k hk
    match k with
    | 0 =>
      apply simLoop_break
      simp [totalRemaining]
    | j + 1 =>
      have hmpos : 0 < m := by linarith
      have hbal : (0 : ℚ) < m * (j + 1 : ℕ) := by
        have : (0 : ℚ) < ((j : ℚ) + 1) := by positivity
        push_cast
        nlinarith
      have htot : ¬ totalRemaining [⟨m * ((j + 1 : ℕ) : ℚ), 0, m⟩] ≤ 1 / 100 := by
        simp only [totalRemaining, List.map_cons, List.map_nil, List.sum_cons, List.sum_nil,
          add_zero]
        rw [max_eq_left (le_of_lt hbal)]
        push_cast
        push_cast at hbal
        nlinarith
      rw [simLoop_step m n _ htot]
      have haccr : accrueInterest [⟨m * ((j + 1 : ℕ) : ℚ), 0, m⟩]
          = [⟨m * ((j + 1 : ℕ) : ℚ), 0, m⟩] := by
        simp [accrueInterest, hbal]
      have hmin : min (min m (m * ((j + 1 : ℕ) : ℚ))) m = m := by
        have h1 : m ≤ m * ((j + 1 : ℕ) : ℚ) := by
          push_cast
          nlinarith
        rw [min_eq_left h1, min_self]
      have hpm : payMinimums [⟨m * ((j + 1 : ℕ) : ℚ), 0, m⟩] m
          = ([⟨m * ((j + 1 : ℕ) : ℚ) - m, 0, m⟩], m - m) := by
        simp only [payMinimums]
        rw [if_neg (by linarith), hmin]
      have hstep : monthStep m [⟨m * ((j + 1 : ℕ) : ℚ), 0, m⟩] = [⟨m * (j : ℕ), 0, m⟩] := by
        unfold monthStep
        rw [haccr, hpm]
        rw [if_neg (by simp)]
        have : m * ((j + 1 : ℕ) : ℚ) - m = m * (j : ℕ) := by
          push_cast
          ring
        rw [this]
      rw [hstep, ih j (by omega)]
      omega

/-! ## Claim C1 -/

/-- C1: `estimatePayoffMonths` always terminates with a result of at most
600 months; and whenever the budget is positive but no larger than one
month's interest on a (single) debt's balance — an interest-only or
negative-amortization input, under which the total remaining balance can
never fall below the 0.01 epsilon — it returns exactly the 600 cap rather
than looping or failing. -/
theorem estimatePayoffMonths_bounded_and_saturating :
    (∀ (debts : List PayoffItem) (budget : ℚ), estimatePayoffMonths debts budget ≤ 600) ∧
    (∀ (nm : String) (bal rate minPay budget : ℚ),
      1 / 100 < bal → 0 < budget → budget ≤ bal * (rate / 100 / 12) →
      estimatePayoffMonths [⟨nm, bal, rate, minPay⟩] budget = 600) := by
  constructor
  · exact estimatePayoffMonths_le_600
  · intro nm bal rate minPay budget hb hp hpr
    unfold estimatePayoffMonths
    rw [if_neg (by simp; linarith)]
    simp only [toSimDebts, List.map_cons, List.map_nil]
    exact simLoop_saturates (rate / 100 / 12) minPay budget bal hb hp hpr 600 bal le_rfl

/-- Witness for C1's saturating clause: a $1000 balance at 24% APR accrues
$20 of interest a month, exactly the whole budget, so the simulator
saturates at the 600-month cap. -/
theorem estimatePayoffMonths_bounded_and_saturating_witness :
    (1 / 100 : ℚ) < 1000 ∧ (0 : ℚ) < 20 ∧ (20 : ℚ) ≤ 1000 * (24 / 100 / 12) ∧
    estimatePayoffMonths [⟨"cc", 1000, 24, 20⟩] 20 = 600 :=
  ⟨by norm_num, by norm_num, by norm_num,
    estimatePayoffMonths_bounded_and_saturating.2 "cc" 1000 24 20 20
      (by norm_num) (by norm_num) (by norm_num)⟩

/-! ## Claim C3 -/

/-- C3 as stated is false: the claim promises exactly `N` months for every
positive minimum payment `m` and positive `N`, but (a) when `m` is at or
below the 0.01 termination epsilon the loop breaks one month early
(`m = 1/200`, `N = 3` pays off in 1 month, since after month 1 the
remaining `2/200` is already `≤ 0.01`), and (b) when `N` exceeds the
600-month cap the result saturates at 600 (`m = 1`, `N = 601`). -/
theorem zero_rate_roundtrip_cex :
    estimatePayoffMonths [⟨"d", (1 / 200 : ℚ) * 3, 0, 1 / 200⟩] (1 / 200) ≠ 3 ∧
    estimatePayoffMonths [⟨"d", (1 : ℚ) * 601, 0, 1⟩] 1 ≠ 601 := by
  constructor
  · -- evaluate the run: it stops after a single month
    have h1 : estimatePayoffMonths [⟨"d", (1 / 200 : ℚ) * 3, 0, 1 / 200⟩] (1 / 200) = 1 := by
      unfold estimatePayoffMonths
      rw [if_neg (by simp)]
      simp only [toSimDebts, List.map_cons, List.map_nil]
      have htot : ¬ totalRemaining [⟨(1 / 200 : ℚ) * 3, 0 / 100 / 12, 1 / 200⟩] ≤ 1 / 100 := by
        norm_num [totalRemaining, max_def]
      rw [show (600 : ℕ) = 599 + 1 from rfl, simLoop_step _ _ _ htot]
      have hstep : monthStep (1 / 200) [⟨(1 / 200 : ℚ) * 3, 0 / 100 / 12, 1 / 200⟩]
          = [⟨(1 / 100 : ℚ), 0 / 100 / 12, 1 / 200⟩] := by
        unfold monthStep
        norm_num [accrueInterest, payMinimums, payExtra, min_def]
      rw [hstep, simLoop_break _ _ _ (by norm_num [totalRemaining, max_def])]
    rw [h1]
    norm_num
  · have := estimatePayoffMonths_le_600 [⟨"d", (1 : ℚ) * 601, 0, 1⟩] 1
    omega

/-- C3 (amended): for a single 0%-interest debt with balance
`minimumPayment · N`, budget = minimumPayment, the simulator returns
exactly `N` months, provided the payment exceeds the 0.01 termination
epsilon and `N` does not exceed the 600-month cap. -/
theorem zero_rate_roundtrip (N : Nat) (m : ℚ) (nm : String)
    (hN : 0 < N) (hcap : N ≤ 600) (hm : 1 / 100 < m) :
    estimatePayoffMonths [⟨nm, m * N, 0, m⟩] m = N := by
  unfold estimatePayoffMonths
  rw [if_neg (by simp; linarith)]
  simp only [toSimDebts, List.map_cons, List.map_nil]
  have h0 : (0 : ℚ) / 100 / 12 = 0 := by norm_num
  rw [h0]
  exact simLoop_zero_rate_exact m hm 600 N hcap

/-- Witness for the amended C3: ten $10 payments clear a $100 debt in
exactly 10 months. -/
theorem zero_rate_roundtrip_witness :
    0 < 10 ∧ 10 ≤ 600 ∧ (1 / 100 : ℚ) < 10 ∧
    estimatePayoffMonths [⟨"d", 10 * (10 : ℕ), 0, 10⟩] 10 = 10 :=
  ⟨by norm_num, by norm_num, by norm_num,
    zero_rate_roundtrip 10 10 "d" (by norm_num) (by norm_num) (by norm_num)⟩

/-! ## Claim C2: monotonicity in the budget -/

/-- Coupling relation for the monotonicity proof: same debts (equal rates
and minimum payments, both non-negative), with the left run's balances
pointwise at most the right run's. -/
def SimLE (xs ys : List SimDebt) : Prop :=
  List.Forall₂ (fun a b =>
    a.monthlyRate = b.monthlyRate ∧ a.minPayment = b.minPayment ∧
    0 ≤ b.monthlyRate ∧ 0 ≤ b.minPayment ∧ a.balance ≤ b.balance) xs ys

theorem SimLE.refl_of_nonneg {ds : List SimDebt}
    (h : ∀ dd ∈ ds, 0 ≤ dd.monthlyRate ∧ 0 ≤ dd.minPayment) : SimLE ds ds := by
  induction ds with
  | nil => exact List.Forall₂.nil
  | cons d ds ih =>
    exact List.Forall₂.cons
      ⟨rfl, rfl, (h d (by simp)).1, (h d (by simp)).2, le_rfl⟩
      (ih fun x hx => h x (List.mem_cons_of_mem d hx))

theorem payMinimums_cons_skip (d : SimDebt) (ds : List SimDebt) (budget : ℚ)
    (h : d.balance ≤ 0) :
    payMinimums (d :: ds) budget =
      (d :: (payMinimums ds budget).1, (payMinimums ds budget).2) := by
  simp only [payMinimums, if_pos h]

theorem payMinimums_cons_pay (d : SimDebt) (ds : List SimDebt) (budget : ℚ)
    (h : ¬ d.balance ≤ 0) :
    payMinimums (d :: ds) budget =
      ({ d with balance := d.balance - min (min d.minPayment d.balance) budget } ::
        (payMinimums ds (budget - min (min d.minPayment d.balance) budget)).1,
       (payMinimums ds (budget - min (min d.minPayment d.balance) budget)).2) := by
  simp only [payMinimums, if_neg h]

theorem payExtra_cons_skip (d : SimDebt) (ds : List SimDebt) (budget : ℚ)
    (h : d.balance ≤ 0) :
    payExtra (d :: ds) budget = d :: payExtra ds budget := by
  simp only [payExtra, if_pos h]

theorem payExtra_cons_pay (d : SimDebt) (ds : List SimDebt) (budget : ℚ)
    (h : ¬ d.balance ≤ 0) :
    payExtra (d :: ds) budget =
      { d with balance := d.balance - min d.balance budget } :: ds := by
  simp only [payExtra, if_neg h]

/-- Paying an extra of 0 changes nothing. -/
theorem payExtra_zero (ds : List SimDebt) : payExtra ds 0 = ds := by
  induction ds with
  | nil => rfl
  | cons d ds ih =>
    by_cases h : d.balance ≤ 0
    · rw [payExtra_cons_skip d ds 0 h, ih]
    · rw [payExtra_cons_pay d ds 0 h]
      have : min d.balance 0 = 0 := min_eq_right (by linarith)
      simp [this]

theorem accrueInterest_mono {xs ys : List SimDebt} (h : SimLE xs ys) :
    SimLE (accrueInterest xs) (accrueInterest ys) := by
  induction h with
  | nil => exact List.Forall₂.nil
  | @cons a b as bs hab htail ih =>
    obtain ⟨hr, hm, hrnn, hmnn, hbal⟩ := hab
    simp only [accrueInterest, List.map_cons] at *
    refine List.Forall₂.cons ?_ ih
    by_cases ha : 0 < a.balance <;> by_cases hb : 0 < b.balance <;>
      simp only [if_pos, if_neg, ha, hb, ite_true, ite_false] <;>
      refine ⟨hr, hm, hrnn, hmnn, ?_⟩
    · rw [hr]
      nlinarith
    · linarith
    · nlinarith
    · linarith

theorem payMinimums_mono {xs ys : List SimDebt} (h : SimLE xs ys) :
    ∀ bx bY : ℚ, bY ≤ bx → 0 ≤ bY →
      SimLE (payMinimums xs bx).1 (payMinimums ys bY).1 ∧
      (payMinimums ys bY).2 ≤ (payMinimums xs bx).2 ∧
      0 ≤ (payMinimums ys bY).2 := by
  induction h with
  | nil =>
    intro bx bY h1 h2
    exact ⟨List.Forall₂.nil, h1, h2⟩
  | @cons a b as bs hab htail ih =>
    intro bx bY hle hnn
    obtain ⟨hr, hm, hrnn, hmnn, hbal⟩ := hab
    by_cases hb : b.balance ≤ 0
    · -- both heads inactive (a.balance ≤ b.balance ≤ 0)
      have ha : a.balance ≤ 0 := le_trans hbal hb
      rw [payMinimums_cons_skip a as bx ha, payMinimums_cons_skip b bs bY hb]
      obtain ⟨h1, h2, h3⟩ := ih bx bY hle hnn
      exact ⟨List.Forall₂.cons ⟨hr, hm, hrnn, hmnn, hbal⟩ h1, h2, h3⟩
    · by_cases ha : a.balance ≤ 0
      · -- only the right head is active
        have hbpos : 0 < b.balance := lt_of_not_le hb
        set payY := min (min b.minPayment b.balance) bY with hpayY
        have hpay_nn : 0 ≤ payY := by
          apply le_min (le_min hmnn (le_of_lt hbpos)) hnn
        have hpay_le : payY ≤ bY := min_le_right _ _
        have hpay_bal : payY ≤ b.balance := le_trans (min_le_left _ _) (min_le_right _ _)
        rw [payMinimums_cons_skip a as bx ha, payMinimums_cons_pay b bs bY hb]
        obtain ⟨h1, h2, h3⟩ := ih bx (bY - payY) (by linarith) (by linarith)
        refine ⟨List.Forall₂.cons ⟨hr, hm, hrnn, hmnn, by simp; linarith⟩ h1, h2, h3⟩
      · -- both heads active
        have hbpos : 0 < b.balance := lt_of_not_le hb
        set payX := min (min a.minPayment a.balance) bx with hpayX
        set payY := min (min b.minPayment b.balance) bY with hpayY
        have hkey1 : bY - payY ≤ bx - payX := by
          rw [hpayX, hpayY, hr, hm] at *
          simp only [min_def]
          split_ifs <;> linarith
        have hkey2 : 0 ≤ bY - payY := by
          have : payY ≤ bY := min_le_right _ _
          linarith
        have hkey3 : a.balance - payX ≤ b.balance - payY := by
          rw [hpayX, hpayY, hm]
          simp only [min_def]
          split_ifs <;> linarith
        rw [payMinimums_cons_pay a as bx ha, payMinimums_cons_pay b bs bY hb]
        obtain ⟨h1, h2, h3⟩ := ih (bx - payX) (bY - payY) hkey1 hkey2
        exact ⟨List.Forall₂.cons ⟨hr, hm, hrnn, hmnn, hkey3⟩ h1, h2, h3⟩

theorem payExtra_mono {xs ys : List SimDebt} (h : SimLE xs ys) :
    ∀ bx bY : ℚ, bY ≤ bx → 0 ≤ bY →
      SimLE (payExtra xs bx) (payExtra ys bY) := by
  induction h with
  | nil => intro _ _ _ _; exact List.Forall₂.nil
  | @cons a b as bs hab htail ih =>
    intro bx bY hle hnn
    obtain ⟨hr, hm, hrnn, hmnn, hbal⟩ := hab
    by_cases hb : b.balance ≤ 0
    · have ha : a.balance ≤ 0 := le_trans hbal hb
      rw [payExtra_cons_skip a as bx ha, payExtra_cons_skip b bs bY hb]
      exact List.Forall₂.cons ⟨hr, hm, hrnn, hmnn, hbal⟩ (ih bx bY hle hnn)
    · by_cases ha : a.balance ≤ 0
      · -- left head inactive: left recurses into the tail, right stops here
        rw [payExtra_cons_skip a as bx ha, payExtra_cons_pay b bs bY hb]
        have htail' : SimLE (payExtra as bx) bs := by
          have := ih bx 0 (by linarith) le_rfl
          rwa [payExtra_zero] at this
        refine List.Forall₂.cons ⟨hr, hm, hrnn, hmnn, ?_⟩ htail'
        have : min b.balance bY ≤ b.balance := min_le_left _ _
        simp
        linarith
      · -- both heads active; both runs stop after the head
        rw [payExtra_cons_pay a as bx ha, payExtra_cons_pay b bs bY hb]
        refine List.Forall₂.cons ⟨hr, hm, hrnn, hmnn, ?_⟩ htail
        simp only [min_def]
        split_ifs <;> simp <;> linarith

theorem monthStep_mono {xs ys : List SimDebt} (h : SimLE xs ys)
    (px pY : ℚ) (hle : pY ≤ px) (hnn : 0 ≤ pY) :
    SimLE (monthStep px xs) (monthStep pY ys) := by
  have haccr := accrueInterest_mono h
  obtain ⟨h1, h2, h3⟩ := payMinimums_mono haccr px pY hle hnn
  unfold monthStep
  by_cases hy : 0 < (payMinimums (accrueInterest ys) pY).2
  · have hx : 0 < (payMinimums (accrueInterest xs) px).2 := lt_of_lt_of_le hy h2
    rw [if_pos hx, if_pos hy]
    exact payExtra_mono h1 _ _ h2 (le_of_lt hy)
  · rw [if_neg hy]
    by_cases hx : 0 < (payMinimums (accrueInterest xs) px).2
    · rw [if_pos hx]
      have h0 : (payMinimums (accrueInterest ys) pY).2 = 0 := le_antisymm (not_lt.mp hy) h3
      have := payExtra_mono h1 (payMinimums (accrueInterest xs) px).2 0
        (le_of_lt hx) le_rfl
      rwa [payExtra_zero] at this
    · rw [if_neg hx]
      exact h1

theorem totalRemaining_mono {xs ys : List SimDebt} (h : SimLE xs ys) :
    totalRemaining xs ≤ totalRemaining ys := by
  induction h with
  | nil => exact le_rfl
  | @cons a b as bs hab htail ih =>
    simp only [totalRemaining, List.map_cons, List.sum_cons] at *
    exact add_le_add (max_le_max hab.2.2.2.2 le_rfl) ih

theorem simLoop_mono (px pY : ℚ) (hle : pY ≤ px) (hnn : 0 ≤ pY) :
    ∀ (fuel : Nat) (xs ys : List SimDebt), SimLE xs ys →
      simLoop px fuel xs ≤ simLoop pY fuel ys := by
  intro fuel
  induction fuel with
  | zero => intro _ _ _; exact le_rfl
  | succ n ih =>
    intro xs ys h
    by_cases hx : totalRemaining xs ≤ 1 / 100
    · rw [simLoop_break px _ _ hx]
      exact Nat.zero_le _
    · have hy : ¬ totalRemaining ys ≤ 1 / 100 := by
        have := totalRemaining_mono h
        intro hcon
        exact hx (le_trans this hcon)
      rw [simLoop_step px n xs hx, simLoop_step pY n ys hy]
      have := ih (monthStep px xs) (monthStep pY ys) (monthStep_mono h px pY hle hnn)
      omega

/-- C2 as stated is false at budget `B1 = 0`: the simulator returns 0
immediately for any budget `≤ 0` (the `totalMonthlyPayment <= 0` guard),
so raising the budget from 0 to 5 on a $100 debt raises the result from
0 months to 20 months. -/
theorem payoff_monotone_in_budget_cex :
    (∀ dd ∈ [PayoffItem.mk "d" 100 0 5],
      0 ≤ dd.balance ∧ 0 ≤ dd.rate ∧ 0 ≤ dd.minimumPayment) ∧
    (0 : ℚ) ≤ 5 ∧
    ¬ estimatePayoffMonths [⟨"d", 100, 0, 5⟩] 5 ≤ estimatePayoffMonths [⟨"d", 100, 0, 5⟩] 0 := by
  refine ⟨by intro dd hdd; simp at hdd; subst hdd; refine ⟨by norm_num, le_rfl, by norm_num⟩,
    by norm_num, ?_⟩
  have h0 : estimatePayoffMonths [⟨"d", 100, 0, 5⟩] 0 = 0 := by
    unfold estimatePayoffMonths
    rw [if_pos (Or.inr le_rfl)]
  have h5 : estimatePayoffMonths [⟨"d", 100, 0, 5⟩] 5 = 20 := by
    rw [show (100 : ℚ) = 5 * ((20 : ℕ) : ℚ) by norm_num]
    unfold estimatePayoffMonths
    rw [if_neg (by simp)]
    simp only [toSimDebts, List.map_cons, List.map_nil]
    rw [show (0 : ℚ) / 100 / 12 = 0 by norm_num]
    exact simLoop_zero_rate_exact 5 (by norm_num) 600 20 (by norm_num)
  rw [h0, h5]
  omega

/-- C2 (amended): for non-negative debts and `0 < B1 ≤ B2`, raising the
total monthly budget never increases the months-to-payoff. -/
theorem payoff_monotone_in_budget (debts : List PayoffItem) (B1 B2 : ℚ)
    (hnn : ∀ dd ∈ debts, 0 ≤ dd.balance ∧ 0 ≤ dd.rate ∧ 0 ≤ dd.minimumPayment)
    (hB1 : 0 < B1) (hle : B1 ≤ B2) :
    estimatePayoffMonths debts B2 ≤ estimatePayoffMonths debts B1 := by
  unfold estimatePayoffMonths
  by_cases he : debts.isEmpty
  · rw [if_pos (Or.inl he), if_pos (Or.inl he)]
  · rw [if_neg (by push_neg; exact ⟨he, by linarith⟩),
      if_neg (by push_neg; exact ⟨he, by linarith⟩)]
    apply simLoop_mono B2 B1 hle (le_of_lt hB1)
    apply SimLE.refl_of_nonneg
    intro dd hdd
    simp only [toSimDebts, List.mem_map] at hdd
    obtain ⟨x, hx, rfl⟩ := hdd
    obtain ⟨-, hr, hm⟩ := hnn x hx
    exact ⟨by positivity, hm⟩

/-- Witness for the amended C2 at a concrete input. -/
theorem payoff_monotone_in_budget_witness :
    (∀ dd ∈ [PayoffItem.mk "d" 100 12 10],
      0 ≤ dd.balance ∧ 0 ≤ dd.rate ∧ 0 ≤ dd.minimumPayment) ∧
    (0 : ℚ) < 10 ∧ (10 : ℚ) ≤ 15 ∧
    estimatePayoffMonths [⟨"d", 100, 12, 10⟩] 15 ≤
      estimatePayoffMonths [⟨"d", 100, 12, 10⟩] 10 :=
  ⟨by intro dd hdd; simp at hdd; subst hdd; refine ⟨by norm_num, by norm_num, by norm_num⟩,
   by norm_num, by norm_num,
   payoff_monotone_in_budget [⟨"d", 100, 12, 10⟩] 10 15
     (by intro dd hdd; simp at hdd; subst hdd; refine ⟨by norm_num, by norm_num, by norm_num⟩)
     (by norm_num) (by norm_num)⟩

/-! ## Claim C10: balances stay non-negative, budget never overspent -/

def BalancesNonneg (ds : List SimDebt) : Prop := ∀ dd ∈ ds, 0 ≤ dd.balance

def RatesNonneg (ds : List SimDebt) : Prop := ∀ dd ∈ ds, 0 ≤ dd.monthlyRate

theorem accrueInterest_balances_nonneg {ds : List SimDebt}
    (hb : BalancesNonneg ds) (hr : RatesNonneg ds) :
    BalancesNonneg (accrueInterest ds) := by
  intro dd hdd
  simp only [accrueInterest, List.mem_map] at hdd
  obtain ⟨x, hx, rfl⟩ := hdd
  have hbx := hb x hx
  have hrx := hr x hx
  by_cases h : 0 < x.balance
  · simp only [if_pos h]
    nlinarith
  · simp only [if_neg h]
    exact hbx

theorem accrueInterest_rates_nonneg {ds : List SimDebt} (hr : RatesNonneg ds) :
    RatesNonneg (accrueInterest ds) := by
  intro dd hdd
  simp only [accrueInterest, List.mem_map] at hdd
  obtain ⟨x, hx, rfl⟩ := hdd
  by_cases h : 0 < x.balance <;> simp only [if_pos, if_neg, h, ite_true, ite_false] <;>
    exact hr x hx

theorem payMinimums_balances_nonneg :
    ∀ (ds : List SimDebt) (budget : ℚ), BalancesNonneg ds →
      BalancesNonneg (payMinimums ds budget).1
  | [], _, _ => by intro dd hdd; simp [payMinimums] at hdd
  | d :: ds, budget, hb => by
    have hbd := hb d (by simp)
    have hbtail : BalancesNonneg ds := fun x hx => hb x (List.mem_cons_of_mem d hx)
    by_cases h : d.balance ≤ 0
    · rw [payMinimums_cons_skip d ds budget h]
      intro dd hdd
      rcases List.mem_cons.mp hdd with rfl | hdd
      · exact hbd
      · exact payMinimums_balances_nonneg ds budget hbtail dd hdd
    · rw [payMinimums_cons_pay d ds budget h]
      intro dd hdd
      rcases List.mem_cons.mp hdd with rfl | hdd
      · have : min (min d.minPayment d.balance) budget ≤ d.balance :=
          le_trans (min_le_left _ _) (min_le_right _ _)
        simp only
        linarith
      · exact payMinimums_balances_nonneg ds _ hbtail dd hdd

theorem payMinimums_budget_nonneg :
    ∀ (ds : List SimDebt) (budget : ℚ), 0 ≤ budget → 0 ≤ (payMinimums ds budget).2
  | [], budget, h => h
  | d :: ds, budget, h => by
    by_cases hd : d.balance ≤ 0
    · rw [payMinimums_cons_skip d ds budget hd]
      exact payMinimums_budget_nonneg ds budget h
    · rw [payMinimums_cons_pay d ds budget hd]
      have : min (min d.minPayment d.balance) budget ≤ budget := min_le_right _ _
      exact payMinimums_budget_nonneg ds _ (by linarith)

theorem payMinimums_rates_nonneg :
    ∀ (ds : List SimDebt) (budget : ℚ), RatesNonneg ds →
      RatesNonneg (payMinimums ds budget).1
  | [], _, _ => by intro dd hdd; simp [payMinimums] at hdd
  | d :: ds, budget, hr => by
    have hrd := hr d (by simp)
    have hrtail : RatesNonneg ds := fun x hx => hr x (List.mem_cons_of_mem d hx)
    by_cases h : d.balance ≤ 0
    · rw [payMinimums_cons_skip d ds budget h]
      intro dd hdd
      rcases List.mem_cons.mp hdd with rfl | hdd
      · exact hrd
      · exact payMinimums_rates_nonneg ds budget hrtail dd hdd
    · rw [payMinimums_cons_pay d ds budget h]
      intro dd hdd
      rcases List.mem_cons.mp hdd with rfl | hdd
      · exact hrd
      · exact payMinimums_rates_nonneg ds _ hrtail dd hdd

theorem payExtra_balances_nonneg :
    ∀ (ds : List SimDebt) (budget : ℚ), BalancesNonneg ds →
      BalancesNonneg (payExtra ds budget)
  | [], _, _ => by intro dd hdd; simp [payExtra] at hdd
  | d :: ds, budget, hb => by
    have hbd := hb d (by simp)
    have hbtail : BalancesNonneg ds := fun x hx => hb x (List.mem_cons_of_mem d hx)
    by_cases h : d.balance ≤ 0
    · rw [payExtra_cons_skip d ds budget h]
      intro dd hdd
      rcases List.mem_cons.mp hdd with rfl | hdd
      · exact hbd
      · exact payExtra_balances_nonneg ds budget hbtail dd hdd
    · rw [payExtra_cons_pay d ds budget h]
      intro dd hdd
      rcases List.mem_cons.mp hdd with rfl | hdd
      · have : min d.balance budget ≤ d.balance := min_le_left _ _
        simp only
        linarith
      · exact hbtail dd hdd

theorem payExtra_rates_nonneg :
    ∀ (ds : List SimDebt) (budget : ℚ), RatesNonneg ds →
      RatesNonneg (payExtra ds budget)
  | [], _, _ => by intro dd hdd; simp [payExtra] at hdd
  | d :: ds, budget, hr => by
    have hrd := hr d (by simp)
    have hrtail : RatesNonneg ds := fun x hx => hr x (List.mem_cons_of_mem d hx)
    by_cases h : d.balance ≤ 0
    · rw [payExtra_cons_skip d ds budget h]
      intro dd hdd
      rcases List.mem_cons.mp hdd with rfl | hdd
      · exact hrd
      · exact payExtra_rates_nonneg ds budget hrtail dd hdd
    · rw [payExtra_cons_pay d ds budget h]
      intro dd hdd
      rcases List.mem_cons.mp hdd with rfl | hdd
      · exact hrd
      · exact hrtail dd hdd

theorem monthStep_eq (p : ℚ) (ds : List SimDebt) :
    monthStep p ds =
      if 0 < (payMinimums (accrueInterest ds) p).2 then
        payExtra (payMinimums (accrueInterest ds) p).1 (payMinimums (accrueInterest ds) p).2
      else (payMinimums (accrueInterest ds) p).1 := rfl

theorem monthStep_balances_nonneg {ds : List SimDebt} (p : ℚ)
    (hb : BalancesNonneg ds) (hr : RatesNonneg ds) :
    BalancesNonneg (monthStep p ds) := by
  rw [monthStep_eq]
  have h1 := payMinimums_balances_nonneg (accrueInterest ds) p
    (accrueInterest_balances_nonneg hb hr)
  split
  · exact payExtra_balances_nonneg _ _ h1
  · exact h1

theorem monthStep_rates_nonneg {ds : List SimDebt} (p : ℚ) (hr : RatesNonneg ds) :
    RatesNonneg (monthStep p ds) := by
  rw [monthStep_eq]
  have h1 := payMinimums_rates_nonneg (accrueInterest ds) p
    (accrueInterest_rates_nonneg hr)
  split
  · exact payExtra_rates_nonneg _ _ h1
  · exact h1

theorem iterate_monthStep_nonneg {ds : List SimDebt} (p : ℚ)
    (hb : BalancesNonneg ds) (hr : RatesNonneg ds) :
    ∀ k : Nat, BalancesNonneg ((monthStep p)^[k] ds) ∧ RatesNonneg ((monthStep p)^[k] ds) := by
  intro k
  induction k with
  | zero => exact ⟨hb, hr⟩
  | succ n ih =>
    rw [Function.iterate_succ_apply']
    exact ⟨monthStep_balances_nonneg p ih.1 ih.2, monthStep_rates_nonneg p ih.2⟩

/-- C10: starting from non-negative balances, rates and minimum payments,
every per-debt balance is non-negative after every phase (interest
accrual, the minimum-payment pass, the extra payment) of every month of
the simulation, and the minimum-payment pass never overspends the shared
budget pool (its leftover stays ≥ 0). -/
theorem simulation_balances_nonneg (p : ℚ) (debts : List PayoffItem)
    (hnn : ∀ dd ∈ debts, 0 ≤ dd.balance ∧ 0 ≤ dd.rate ∧ 0 ≤ dd.minimumPayment)
    (hp : 0 ≤ p) :
    ∀ k : Nat,
      BalancesNonneg ((monthStep p)^[k] (toSimDebts debts)) ∧
      BalancesNonneg (accrueInterest ((monthStep p)^[k] (toSimDebts debts))) ∧
      BalancesNonneg
        (payMinimums (accrueInterest ((monthStep p)^[k] (toSimDebts debts))) p).1 ∧
      0 ≤ (payMinimums (accrueInterest ((monthStep p)^[k] (toSimDebts debts))) p).2 ∧
      BalancesNonneg
        (payExtra (payMinimums (accrueInterest ((monthStep p)^[k] (toSimDebts debts))) p).1
          (payMinimums (accrueInterest ((monthStep p)^[k] (toSimDebts debts))) p).2) := by
  have hb0 : BalancesNonneg (toSimDebts debts) := by
    intro dd hdd
    simp only [toSimDebts, List.mem_map] at hdd
    obtain ⟨x, hx, rfl⟩ := hdd
    exact (hnn x hx).1
  have hr0 : RatesNonneg (toSimDebts debts) := by
    intro dd hdd
    simp only [toSimDebts, List.mem_map] at hdd
    obtain ⟨x, hx, rfl⟩ := hdd
    have := (hnn x hx).2.1
    simp only
    positivity
  intro k
  obtain ⟨hbk, hrk⟩ := iterate_monthStep_nonneg p hb0 hr0 k
  have haccb := accrueInterest_balances_nonneg hbk hrk
  have hpm := payMinimums_balances_nonneg _ p haccb
  exact ⟨hbk, haccb, hpm, payMinimums_budget_nonneg _ p hp,
    payExtra_balances_nonneg _ _ hpm⟩

/-- Witness for C10 at a concrete input. -/
theorem simulation_balances_nonneg_witness :
    (∀ dd ∈ [PayoffItem.mk "a" 100 18 10, PayoffItem.mk "b" 50 0 5],
      0 ≤ dd.balance ∧ 0 ≤ dd.rate ∧ 0 ≤ dd.minimumPayment) ∧
    (0 : ℚ) ≤ 20 ∧
    BalancesNonneg ((monthStep 20)^[5]
      (toSimDebts [PayoffItem.mk "a" 100 18 10, PayoffItem.mk "b" 50 0 5])) := by
  have hnn : ∀ dd ∈ [PayoffItem.mk "a" 100 18 10, PayoffItem.mk "b" 50 0 5],
      0 ≤ dd.balance ∧ 0 ≤ dd.rate ∧ 0 ≤ dd.minimumPayment := by
    intro dd hdd
    rcases List.mem_cons.mp hdd with rfl | hdd
    · refine ⟨by norm_num, by norm_num, by norm_num⟩
    · simp at hdd
      subst hdd
      refine ⟨by norm_num, by norm_num, by norm_num⟩
  exact ⟨hnn, by norm_num,
    (simulation_balances_nonneg 20 _ hnn (by norm_num) 5).1⟩

/-! ## Claim C4: good/bad classification is a partition -/

theorem sum_filter_partition {α : Type} (pb : α → Bool) (f : α → ℚ) :
    ∀ l : List α,
      ((l.filter pb).map f).sum + ((l.filter fun x => !(pb x)).map f).sum = (l.map f).sum
  | [] => by simp
  | x :: l => by
    by_cases h : pb x <;>
      simp only [List.filter_cons, h, Bool.not_true, Bool.not_false, ite_true, ite_false,
        List.map_cons, List.sum_cons, Bool.false_eq_true, if_false, if_true] <;>
      have := sum_filter_partition pb f l <;> linarith

theorem length_filter_partition {α : Type} (pb : α → Bool) :
    ∀ l : List α,
      (l.filter pb).length + (l.filter fun x => !(pb x)).length = l.length
  | [] => by simp
  | x :: l => by
    by_cases h : pb x <;>
      simp only [List.filter_cons, h, Bool.not_true, Bool.not_false, ite_true, ite_false,
        List.length_cons, Bool.false_eq_true, if_false, if_true] <;>
      have := length_filter_partition pb l <;> omega

/-- C4: the good/bad classification partitions the debts list (every debt
is classified, none twice), a debt is good exactly when it is a mortgage
or a student loan at ≤ 7%, and in both engine copies
`goodDebtTotal + badDebtTotal` equals the sum of all debt balances plus
all real-estate mortgage balances (mortgages always folded into good). -/
theorem good_bad_debt_partition (re : List RealEstateHolding) (s : List StockHolding)
    (c : List CryptoHolding) (r : List RetirementAccount) (d : List DebtLiability) :
    ((Web.goodDebtsFromTable d).length + (Web.badDebts d).length = d.length) ∧
    (∀ x ∈ d, Web.isGoodDebt x.debtType x.interestRate = true ↔
      (x.debtType = "mortgage" ∨ (x.debtType = "student_loan" ∧ x.interestRate ≤ 7))) ∧
    ((Web.metricsOf re s c r d).goodDebtTotal + (Web.metricsOf re s c r d).badDebtTotal =
      (d.map fun x => x.currentBalance).sum + (re.map fun p => p.mortgageBalance).sum) ∧
    ((Main.metricsOf re s c r d).goodDebtTotal + (Main.metricsOf re s c r d).badDebtTotal =
      (d.map fun x => x.currentBalance).sum + (re.map fun p => p.mortgageBalance).sum) := by
  refine ⟨?_, ?_, ?_, ?_⟩
  · exact length_filter_partition _ d
  · intro x _
    simp only [Web.isGoodDebt]
    split_ifs with h1 h2
    · simp [h1]
    · simp [h2]
    · simp only [Bool.false_eq_true, false_iff]
      rintro (h | h)
      · exact h1 h
      · exact h2 h
  · show Web.goodDebtTotal re d + Web.badDebtTotal d = _
    unfold Web.goodDebtTotal Web.badDebtTotal Web.goodDebtsFromTable Web.badDebts
      Web.totalMortgageBalances
    have := sum_filter_partition (fun x => Web.isGoodDebt x.debtType x.interestRate)
      (fun x => x.currentBalance) d
    linarith
  · show Main.goodDebtTotal re d + Main.badDebtTotal d = _
    unfold Main.goodDebtTotal Main.badDebtTotal Main.goodDebtsFromTable Main.badDebts
      Main.totalMortgageBalances
    have := sum_filter_partition (fun x => Main.isGoodDebt x.debtType x.interestRate)
      (fun x => x.currentBalance) d
    linarith

/-! ## Claim C8: insight categories vs. the declared enumeration -/

/-- C8 fails on the main-process copy: on a snapshot with one retirement
account of $100 and no debts, `generateInsights` pushes the debt-free
insight with `category: 'positive' as Insight['category']` — a value
outside the declared category union (the browser copy uses
`'opportunity'` there). -/
theorem insight_category_enum_bug :
    ¬ ∀ i ∈ (Main.generateInsights (fun _ _ => 0) 0 [] [] [] [⟨100⟩] [] none).insights,
        i.category ∈ ["debt_payoff", "leverage", "portfolio_health", "cash_flow", "opportunity"] := by
  have hins : (Main.generateInsights (fun _ _ => 0) 0 [] [] [] [⟨100⟩] [] none).insights
      = [⟨"positive", "positive", []⟩, ⟨"portfolio_health", "positive", []⟩] := by
    norm_num [Main.generateInsights, Main.overviewInsights, Main.debtBlockInsights,
      Main.leverageRateInsights, Main.creditCardInsights, Main.ratioInsights,
      Main.concentrationInsights, Main.bufferInsights, Main.ageRetirementInsights,
      Main.ageCryptoInsights, Main.ageEquityInsights, Main.debtFreeInsights,
      Main.retirementInsights, Main.totalAllObligations, Main.totalDebtsOnly,
      Main.totalMortgageBalances, Main.netWorth, Main.totalAssets, Main.totalRealEstateEquity,
      Main.totalStocks, Main.totalCrypto, Main.totalRetirement, Main.totalDebts,
      Main.debtToAssetRatio, Main.totalInvestable, Main.cryptoPct, Main.stocksPct,
      Main.monthlyDebtPayments, Main.monthlyMortgagePayments, Main.creditCards,
      Main.annualizedReturnPct, Main.stockCostBasis]
  intro h
  have hmem := h ⟨"positive", "positive", []⟩ (by rw [hins]; exact List.mem_cons_self _ _)
  revert hmem
  decide

/-! ## Claim C9: the two engine copies -/

/-- C9 as stated is false: on a snapshot with one $100 retirement account
and no debts, the two copies' debt-free insights carry different
categories (`'positive'` in the main-process copy, `'opportunity'` in the
browser copy), so the insight lists differ. -/
theorem engines_equal_cex :
    (Main.generateInsights (fun _ _ => 0) 0 [] [] [] [⟨100⟩] [] none).insights ≠
      (Web.computeInsights (fun _ _ => 0) 0 [] [] [] [⟨100⟩] []).insights := by
  have hmain : (Main.generateInsights (fun _ _ => 0) 0 [] [] [] [⟨100⟩] [] none).insights
      = [⟨"positive", "positive", []⟩, ⟨"portfolio_health", "positive", []⟩] := by
    norm_num [Main.generateInsights, Main.overviewInsights, Main.debtBlockInsights,
      Main.leverageRateInsights, Main.creditCardInsights, Main.ratioInsights,
      Main.concentrationInsights, Main.bufferInsights, Main.ageRetirementInsights,
      Main.ageCryptoInsights, Main.ageEquityInsights, Main.debtFreeInsights,
      Main.retirementInsights, Main.totalAllObligations, Main.totalDebtsOnly,
      Main.totalMortgageBalances, Main.netWorth, Main.totalAssets, Main.totalRealEstateEquity,
      Main.totalStocks, Main.totalCrypto, Main.totalRetirement, Main.totalDebts,
      Main.debtToAssetRatio, Main.totalInvestable, Main.cryptoPct, Main.stocksPct,
      Main.monthlyDebtPayments, Main.monthlyMortgagePayments, Main.creditCards,
      Main.annualizedReturnPct, Main.stockCostBasis]
  have hweb : (Web.computeInsights (fun _ _ => 0) 0 [] [] [] [⟨100⟩] []).insights
      = [⟨"opportunity", "positive", []⟩, ⟨"portfolio_health", "positive", []⟩] := by
    norm_num [Web.computeInsights, Web.overviewInsights, Web.debtBlockInsights,
      Web.leverageRateInsights, Web.creditCardInsights, Web.ratioInsights,
      Web.concentrationInsights, Web.bufferInsights, Web.debtFreeInsights,
      Web.retirementInsights, Web.totalAllObligations, Web.totalDebtsOnly,
      Web.totalMortgageBalances, Web.netWorth, Web.totalAssets, Web.totalRealEstateEquity,
      Web.totalStocks, Web.totalCrypto, Web.totalRetirement, Web.totalDebts,
      Web.debtToAssetRatio, Web.totalInvestable, Web.cryptoPct, Web.stocksPct,
      Web.monthlyDebtPayments, Web.monthlyMortgagePayments, Web.creditCards,
      Web.annualizedReturnPct, Web.stockCostBasis]
  rw [hmain, hweb]
  decide

/-- Normalisation of the single category divergence between the copies. -/
def fixCategory (i : Insight) : Insight :=
  if i.category = "positive" then ⟨"opportunity", i.severity, i.names⟩ else i

theorem overview_eq : Main.overviewInsights = Web.overviewInsights := rfl
theorem debtBlock_eq : Main.debtBlockInsights = Web.debtBlockInsights := rfl
theorem leverageRate_eq : Main.leverageRateInsights = Web.leverageRateInsights := rfl
theorem creditCard_eq : Main.creditCardInsights = Web.creditCardInsights := rfl
theorem ratio_eq : Main.ratioInsights = Web.ratioInsights := rfl
theorem concentration_eq : Main.concentrationInsights = Web.concentrationInsights := rfl
theorem buffer_eq : Main.bufferInsights = Web.bufferInsights := rfl
theorem retirement_eq : Main.retirementInsights = Web.retirementInsights := rfl
theorem metricsOf_eq : Main.metricsOf = Web.metricsOf := rfl
theorem buildDebtPayoff_eq : Main.buildDebtPayoff = Web.buildDebtPayoff := rfl

theorem fixCategory_overview (re : List RealEstateHolding) (d : List DebtLiability) :
    (Web.overviewInsights re d).map fixCategory = Web.overviewInsights re d := by
  unfold Web.overviewInsights
  split_ifs <;> simp [fixCategory]

theorem fixCategory_debtBlock (re : List RealEstateHolding) (s : List StockHolding)
    (c : List CryptoHolding) (r : List RetirementAccount) (d : List DebtLiability) :
    (Web.debtBlockInsights re s c r d).map fixCategory = Web.debtBlockInsights re s c r d := by
  unfold Web.debtBlockInsights Web.highInterestInsights Web.minOnlyInsights
    Web.annualInterestInsights
  split_ifs <;> simp [fixCategory]

theorem fixCategory_leverageRate (rpow : ℚ → ℚ → ℚ) (now : ℚ) (s : List StockHolding)
    (d : List DebtLiability) :
    (Web.leverageRateInsights rpow now s d).map fixCategory =
      Web.leverageRateInsights rpow now s d := by
  unfold Web.leverageRateInsights
  split_ifs <;> simp [fixCategory]

theorem fixCategory_creditCard (s : List StockHolding) (c : List CryptoHolding)
    (d : List DebtLiability) :
    (Web.creditCardInsights s c d).map fixCategory = Web.creditCardInsights s c d := by
  unfold Web.creditCardInsights
  split_ifs <;> simp [fixCategory]

theorem fixCategory_ratio (re : List RealEstateHolding) (s : List StockHolding)
    (c : List CryptoHolding) (r : List RetirementAccount) (d : List DebtLiability) :
    (Web.ratioInsights re s c r d).map fixCategory = Web.ratioInsights re s c r d := by
  unfold Web.ratioInsights
  split_ifs <;> simp [fixCategory]

theorem fixCategory_concentration (s : List StockHolding) (c : List CryptoHolding)
    (r : List RetirementAccount) :
    (Web.concentrationInsights s c r).map fixCategory = Web.concentrationInsights s c r := by
  unfold Web.concentrationInsights
  split_ifs <;> simp [fixCategory]

theorem fixCategory_buffer (re : List RealEstateHolding) (s : List StockHolding)
    (c : List CryptoHolding) (d : List DebtLiability) :
    (Web.bufferInsights re s c d).map fixCategory = Web.bufferInsights re s c d := by
  unfold Web.bufferInsights
  split_ifs <;> simp [fixCategory]

theorem fixCategory_debtFree (re : List RealEstateHolding) (s : List StockHolding)
    (c : List CryptoHolding) (r : List RetirementAccount) (d : List DebtLiability) :
    (Main.debtFreeInsights re s c r d).map fixCategory = Web.debtFreeInsights re s c r d := by
  unfold Main.debtFreeInsights Web.debtFreeInsights
  rw [show Main.netWorth = Web.netWorth from rfl]
  split_ifs <;> simp [fixCategory]

theorem fixCategory_retirement (re : List RealEstateHolding) (s : List StockHolding)
    (c : List CryptoHolding) (r : List RetirementAccount) (d : List DebtLiability) :
    (Web.retirementInsights re s c r d).map fixCategory = Web.retirementInsights re s c r d := by
  unfold Web.retirementInsights
  split_ifs <;> simp [fixCategory]

/-- C9 (amended): with no age supplied, the two engine copies produce
identical metrics, identical payoff plans, and identical insight lists
(same order, severities and named debts) — except that the single
debt-free insight is categorised `'positive'` by the main-process copy
where the browser copy says `'opportunity'`; after normalising that one
category the insight lists agree exactly. -/
theorem engines_equivalent (rpow : ℚ → ℚ → ℚ) (now : ℚ) (re : List RealEstateHolding)
    (s : List StockHolding) (c : List CryptoHolding) (r : List RetirementAccount)
    (d : List DebtLiability) :
    (Web.computeInsights rpow now re s c r d).insights =
      ((Main.generateInsights rpow now re s c r d none).insights.map fixCategory) ∧
    (Web.computeInsights rpow now re s c r d).metrics =
      (Main.generateInsights rpow now re s c r d none).metrics ∧
    (Web.computeInsights rpow now re s c r d).debtPayoff =
      (Main.generateInsights rpow now re s c r d none).debtPayoff := by
  refine ⟨?_, ?_, ?_⟩
  · show _ = ((Main.overviewInsights re d ++ Main.debtBlockInsights re s c r d ++
      Main.leverageRateInsights rpow now s d ++ Main.creditCardInsights s c d ++
      Main.ratioInsights re s c r d ++ Main.concentrationInsights s c r ++
      Main.bufferInsights re s c d ++ Main.ageRetirementInsights r none ++
      Main.ageCryptoInsights s c r none ++ Main.ageEquityInsights re s c r none ++
      Main.debtFreeInsights re s c r d ++ Main.retirementInsights re s c r d).map fixCategory)
    rw [overview_eq, debtBlock_eq, leverageRate_eq, creditCard_eq, ratio_eq,
      concentration_eq, buffer_eq, retirement_eq]
    rw [show Main.ageRetirementInsights r none = [] from rfl,
      show Main.ageCryptoInsights s c r none = [] from rfl,
      show Main.ageEquityInsights re s c r none = [] from rfl]
    simp only [List.append_nil, List.map_append]
    rw [fixCategory_overview, fixCategory_debtBlock, fixCategory_leverageRate,
      fixCategory_creditCard, fixCategory_ratio, fixCategory_concentration,
      fixCategory_buffer, fixCategory_debtFree, fixCategory_retirement]
    rfl
  · show Web.metricsOf re s c r d = Main.metricsOf re s c r d
    rw [metricsOf_eq]
  · show Web.buildDebtPayoff d = Main.buildDebtPayoff d
    rw [buildDebtPayoff_eq]

/-! ## Claim C6: the minimum-payment rule -/

/-- C6 as stated is false: a debt with `monthlyPayment` absent has
effective payment `minimumPayment ≤ 1.05 · minimumPayment`, so the claim
demands a cash-flow warning covering it — but the code's filter requires
a (truthy) `monthlyPayment` field, so no such insight is emitted (the
only cash-flow warning in the report is the emergency-buffer one, which
names no debts). -/
theorem min_payment_insight_cex :
    ((DebtLiability.mk "d1" "other" 100 0 50 none).monthlyPayment.getD
        (DebtLiability.mk "d1" "other" 100 0 50 none).minimumPayment ≤
      (DebtLiability.mk "d1" "other" 100 0 50 none).minimumPayment * (105 / 100)) ∧
    Insight.mk "cash_flow" "warning" ["d1"] ∉
      (Web.computeInsights (fun _ _ => 0) 0 [] [] [] []
        [⟨"d1", "other", 100, 0, 50, none⟩]).insights := by
  constructor
  · norm_num
  · have hins : (Web.computeInsights (fun _ _ => 0) 0 [] [] [] []
        [⟨"d1", "other", 100, 0, 50, none⟩]).insights
        = [⟨"debt_payoff", "warning", []⟩, ⟨"cash_flow", "warning", []⟩] := by
      norm_num [Web.computeInsights, Web.overviewInsights, Web.debtBlockInsights,
        Web.highInterestInsights, Web.minOnlyInsights, Web.annualInterestInsights,
        Web.leverageRateInsights, Web.creditCardInsights, Web.ratioInsights,
        Web.concentrationInsights, Web.bufferInsights, Web.debtFreeInsights,
        Web.retirementInsights, Web.totalAllObligations, Web.totalDebtsOnly,
        Web.totalMortgageBalances, Web.netWorth, Web.totalAssets, Web.totalRealEstateEquity,
        Web.totalStocks, Web.totalCrypto, Web.totalRetirement, Web.totalDebts,
        Web.debtToAssetRatio, Web.totalInvestable, Web.cryptoPct, Web.stocksPct,
        Web.monthlyDebtPayments, Web.monthlyMortgagePayments, Web.creditCards,
        Web.annualizedReturnPct, Web.stockCostBasis, Web.badDebtTotal, Web.badDebts,
        Web.goodDebtTotal, Web.goodDebtsFromTable, Web.isGoodDebt, Web.highInterestDebts,
        Web.highInterestDebtTotal, Web.minOnlyDebts, Web.annualInterest,
        List.filter_cons, List.filter_nil]
      all_goals simp
    rw [hins]
    decide

/-- C6 (amended): the rule fires on the debts whose `monthlyPayment`
field is present, non-zero and at most `1.05 · minimumPayment` (an absent
`monthlyPayment` does not count, even though it defaults to the minimum
elsewhere); when at least one debt qualifies, a warning cash-flow insight
is emitted naming exactly the qualifying debts. -/
theorem min_payment_insight (rpow : ℚ → ℚ → ℚ) (now : ℚ) (re : List RealEstateHolding)
    (s : List StockHolding) (c : List CryptoHolding) (r : List RetirementAccount)
    (d : List DebtLiability) (h : Web.minOnlyDebts d ≠ []) :
    Web.minOnlyInsights d =
      [⟨"cash_flow", "warning", (Web.minOnlyDebts d).map fun x => x.name⟩] ∧
    Insight.mk "cash_flow" "warning" ((Web.minOnlyDebts d).map fun x => x.name) ∈
      (Web.computeInsights rpow now re s c r d).insights ∧
    ∀ x ∈ d, (x ∈ Web.minOnlyDebts d ↔
      ∃ mp, x.monthlyPayment = some mp ∧ mp ≠ 0 ∧ mp ≤ x.minimumPayment * (105 / 100)) := by
  have hlen : 0 < (Web.minOnlyDebts d).length := List.length_pos.mpr h
  have hrule : Web.minOnlyInsights d =
      [⟨"cash_flow", "warning", (Web.minOnlyDebts d).map fun x => x.name⟩] := by
    unfold Web.minOnlyInsights
    rw [if_pos hlen]
  have hdlen : 0 < d.length := by
    cases d with
    | nil => simp [Web.minOnlyDebts] at h
    | cons a l => simp
  refine ⟨hrule, ?_, ?_⟩
  · simp only [Web.computeInsights, Web.debtBlockInsights, if_pos hdlen, List.mem_append]
    rw [hrule]
    simp
  · intro x hx
    constructor
    · intro hmem
      simp only [Web.minOnlyDebts, List.mem_filter] at hmem
      obtain ⟨-, hp⟩ := hmem
      cases hmp : x.monthlyPayment with
      | none => rw [hmp] at hp; simp at hp
      | some mp =>
        rw [hmp] at hp
        simp only [decide_eq_true_eq] at hp
        exact ⟨mp, rfl, hp⟩
    · rintro ⟨mp, hmp, hne, hle⟩
      simp only [Web.minOnlyDebts, List.mem_filter]
      refine ⟨hx, ?_⟩
      rw [hmp]
      simp only [decide_eq_true_eq]
      exact ⟨hne, hle⟩

/-- Witness for the amended C6 at a concrete input. -/
theorem min_payment_insight_witness :
    Web.minOnlyDebts [⟨"d1", "credit_card", 100, 0, 50, some 50⟩] ≠ [] ∧
    Web.minOnlyInsights [⟨"d1", "credit_card", 100, 0, 50, some 50⟩] =
      [⟨"cash_flow", "warning",
        (Web.minOnlyDebts [⟨"d1", "credit_card", 100, 0, 50, some 50⟩]).map fun x => x.name⟩] := by
  have h : Web.minOnlyDebts [(⟨"d1", "credit_card", 100, 0, 50, some 50⟩ : DebtLiability)] ≠ [] := by
    norm_num [Web.minOnlyDebts, List.filter]
  exact ⟨h, (min_payment_insight (fun _ _ => 0) 0 [] [] [] [] _ h).1⟩

/-! ## Claim C7: the leverage comparison rule -/

/-- C7 as stated is false: with no stocks the annualized return is
defined as 0, and a 20% debt exceeds it, yet the engine emits no leverage
insight at all — the rule is additionally gated on
`annualizedReturnPct > 0`. -/
theorem leverage_flagging_cex :
    Web.annualizedReturnPct (fun _ _ => 0) 0 [] = 0 ∧
    (0 : ℚ) < (DebtLiability.mk "d1" "personal_loan" 100 20 10 none).interestRate ∧
    (Web.computeInsights (fun _ _ => 0) 0 [] [] [] []
      [⟨"d1", "personal_loan", 100, 20, 10, none⟩]).insights.filter
        (fun i => i.category == "leverage") = [] := by
  refine ⟨by norm_num [Web.annualizedReturnPct, Web.stockCostBasis], by norm_num, ?_⟩
  have hins : (Web.computeInsights (fun _ _ => 0) 0 [] [] [] []
      [⟨"d1", "personal_loan", 100, 20, 10, none⟩]).insights
      = [⟨"debt_payoff", "warning", []⟩, ⟨"debt_payoff", "critical", ["d1"]⟩,
         ⟨"debt_payoff", "info", []⟩, ⟨"cash_flow", "warning", []⟩] := by
    norm_num [Web.computeInsights, Web.overviewInsights, Web.debtBlockInsights,
      Web.highInterestInsights, Web.minOnlyInsights, Web.annualInterestInsights,
      Web.leverageRateInsights, Web.creditCardInsights, Web.ratioInsights,
      Web.concentrationInsights, Web.bufferInsights, Web.debtFreeInsights,
      Web.retirementInsights, Web.totalAllObligations, Web.totalDebtsOnly,
      Web.totalMortgageBalances, Web.netWorth, Web.totalAssets, Web.totalRealEstateEquity,
      Web.totalStocks, Web.totalCrypto, Web.totalRetirement, Web.totalDebts,
      Web.debtToAssetRatio, Web.totalInvestable, Web.cryptoPct, Web.stocksPct,
      Web.monthlyDebtPayments, Web.monthlyMortgagePayments, Web.creditCards,
      Web.annualizedReturnPct, Web.stockCostBasis, Web.badDebtTotal, Web.badDebts,
      Web.goodDebtTotal, Web.goodDebtsFromTable, Web.isGoodDebt, Web.highInterestDebts,
      Web.highInterestDebtTotal, Web.minOnlyDebts, Web.annualInterest,
      List.filter_cons, List.filter_nil]
    all_goals simp
  rw [hins]
  decide

/-- C7 (amended): provided the annualized return estimate is positive,
every debt whose rate exceeds it is named in the emitted warning-severity
leverage insight. -/
theorem leverage_flagging (rpow : ℚ → ℚ → ℚ) (now : ℚ) (re : List RealEstateHolding)
    (s : List StockHolding) (c : List CryptoHolding) (r : List RetirementAccount)
    (d : List DebtLiability) (x : DebtLiability) (hx : x ∈ d)
    (hann : 0 < Web.annualizedReturnPct rpow now s)
    (hrate : Web.annualizedReturnPct rpow now s < x.interestRate) :
    Insight.mk "leverage" "warning" ((Web.aboveReturnDebts rpow now s d).map fun y => y.name) ∈
      (Web.computeInsights rpow now re s c r d).insights ∧
    x.name ∈ (Web.aboveReturnDebts rpow now s d).map fun y => y.name := by
  have hmem : x ∈ Web.aboveReturnDebts rpow now s d := by
    simp only [Web.aboveReturnDebts, List.mem_filter, decide_eq_true_eq]
    exact ⟨hx, hrate⟩
  have hlen : 0 < (Web.aboveReturnDebts rpow now s d).length :=
    List.length_pos.mpr (List.ne_nil_of_mem hmem)
  have hdlen : 0 < d.length := List.length_pos.mpr (List.ne_nil_of_mem hx)
  have hrule : Web.leverageRateInsights rpow now s d =
      [⟨"leverage", "warning", (Web.aboveReturnDebts rpow now s d).map fun y => y.name⟩] := by
    unfold Web.leverageRateInsights
    rw [if_pos ⟨hdlen, hann⟩, if_pos hlen]
  constructor
  · simp only [Web.computeInsights, List.mem_append]
    rw [hrule]
    simp
  · exact List.mem_map_of_mem _ hmem

/-- Witness for the amended C7 at a concrete input: one stock bought at
cost basis 1 with `Math.pow` returning 2 gives a 100% annualized return,
and a 150% debt exceeds it. -/
theorem leverage_flagging_witness :
    (0 : ℚ) < Web.annualizedReturnPct (fun _ _ => (2 : ℚ)) 0 [⟨1, 1, none, 0⟩] ∧
    Web.annualizedReturnPct (fun _ _ => (2 : ℚ)) 0 [⟨1, 1, none, 0⟩] <
      (DebtLiability.mk "d1" "other" 100 150 10 none).interestRate ∧
    Insight.mk "leverage" "warning"
      ((Web.aboveReturnDebts (fun _ _ => (2 : ℚ)) 0 [⟨1, 1, none, 0⟩]
        [⟨"d1", "other", 100, 150, 10, none⟩]).map fun y => y.name) ∈
      (Web.computeInsights (fun _ _ => (2 : ℚ)) 0 [] [⟨1, 1, none, 0⟩] [] []
        [⟨"d1", "other", 100, 150, 10, none⟩]).insights := by
  have hann : Web.annualizedReturnPct (fun _ _ => (2 : ℚ)) 0 [⟨1, 1, none, 0⟩] = 100 := by
    norm_num [Web.annualizedReturnPct, Web.stockCostBasis, Web.stockGains,
      Web.holdingYears, Web.oldestStockDate, Web.msPerYear]
  refine ⟨by rw [hann]; norm_num, by rw [hann]; norm_num, ?_⟩
  exact (leverage_flagging (fun _ _ => (2 : ℚ)) 0 [] [⟨1, 1, none, 0⟩] [] []
    [⟨"d1", "other", 100, 150, 10, none⟩] ⟨"d1", "other", 100, 150, 10, none⟩
    (by simp) (by rw [hann]; norm_num) (by rw [hann]; norm_num)).1

/-! ## Claim C5: empty snapshots -/

/-- C5 as stated is false: a snapshot with no debts and zero *total*
assets can still carry a real-estate holding whose value is entirely
mortgaged (value 100, mortgage 100 — equity 0).  The mortgage balance is
an obligation, so the good-debt overview insight fires and
`goodDebtTotal` is 100, not 0. -/
theorem empty_snapshot_cex :
    Web.totalAssets [⟨100, 100, none⟩] [] [] [] = 0 ∧
    (Web.computeInsights (fun _ _ => 0) 0 [⟨100, 100, none⟩] [] [] [] []).insights ≠ [] ∧
    (Web.computeInsights (fun _ _ => 0) 0 [⟨100, 100, none⟩] [] [] [] []).metrics.goodDebtTotal
      ≠ 0 := by
  refine ⟨by norm_num [Web.totalAssets, Web.totalRealEstateEquity, Web.totalStocks,
    Web.totalCrypto, Web.totalRetirement], ?_, ?_⟩
  · have hins : (Web.computeInsights (fun _ _ => 0) 0 [⟨100, 100, none⟩] [] [] [] []).insights
        = [⟨"debt_payoff", "positive", []⟩] := by
      norm_num [Web.computeInsights, Web.overviewInsights, Web.debtBlockInsights,
        Web.leverageRateInsights, Web.creditCardInsights, Web.ratioInsights,
        Web.concentrationInsights, Web.bufferInsights, Web.debtFreeInsights,
        Web.retirementInsights, Web.totalAllObligations, Web.totalDebtsOnly,
        Web.totalMortgageBalances, Web.netWorth, Web.totalAssets, Web.totalRealEstateEquity,
        Web.totalStocks, Web.totalCrypto, Web.totalRetirement, Web.totalDebts,
        Web.debtToAssetRatio, Web.totalInvestable, Web.cryptoPct, Web.stocksPct,
        Web.monthlyDebtPayments, Web.monthlyMortgagePayments, Web.creditCards,
        Web.annualizedReturnPct, Web.stockCostBasis, Web.badDebtTotal, Web.badDebts,
        Web.goodDebtTotal, Web.goodDebtsFromTable, Web.isGoodDebt,
        List.filter_cons, List.filter_nil]
    rw [hins]
    decide
  · show Web.goodDebtTotal [⟨100, 100, none⟩] [] ≠ 0
    norm_num [Web.goodDebtTotal, Web.goodDebtsFromTable, Web.totalMortgageBalances]

/-- C5 (amended): an empty debts list, zero total assets *and no
real-estate mortgage balances or mortgage payments* (with the usual
non-negative quantities) give an all-zero metrics block, an empty
insights list and a null payoff block — in both engine copies. -/
theorem empty_snapshot_zero (rpow : ℚ → ℚ → ℚ) (now : ℚ) (re : List RealEstateHolding)
    (s : List StockHolding) (c : List CryptoHolding) (r : List RetirementAccount)
    (hre : ∀ p ∈ re, p.mortgageBalance = 0 ∧ p.monthlyMortgagePayment.getD 0 = 0 ∧
      0 ≤ p.estimatedValue)
    (hs : ∀ st ∈ s, 0 ≤ st.shares ∧ 0 ≤ st.currentPrice.getD st.costBasisPerShare)
    (hc : ∀ x ∈ c, 0 ≤ x.quantity ∧ 0 ≤ x.currentPrice.getD x.costBasisPerUnit)
    (hr : ∀ x ∈ r, 0 ≤ x.balance)
    (hta : Web.totalAssets re s c r = 0) :
    (Web.computeInsights rpow now re s c r []).insights = [] ∧
    (Web.computeInsights rpow now re s c r []).debtPayoff = none ∧
    (Web.computeInsights rpow now re s c r []).metrics = ⟨0, 0, 0, 0, 0, 0, 0, 0, 0, 0, 0⟩ ∧
    (Main.generateInsights rpow now re s c r [] none).insights = [] ∧
    (Main.generateInsights rpow now re s c r [] none).debtPayoff = none ∧
    (Main.generateInsights rpow now re s c r [] none).metrics = ⟨0, 0, 0, 0, 0, 0, 0, 0, 0, 0, 0⟩ := by
  have hmort : Web.totalMortgageBalances re = 0 := by
    apply List.sum_eq_zero
    intro x hx
    simp only [List.mem_map] at hx
    obtain ⟨p, hp, rfl⟩ := hx
    exact (hre p hp).1
  have hmp : Web.monthlyMortgagePayments re = 0 := by
    apply List.sum_eq_zero
    intro x hx
    simp only [List.mem_map] at hx
    obtain ⟨p, hp, rfl⟩ := hx
    exact (hre p hp).2.1
  have heq_nn : 0 ≤ Web.totalRealEstateEquity re := by
    apply List.sum_nonneg
    intro x hx
    simp only [List.mem_map] at hx
    obtain ⟨p, hp, rfl⟩ := hx
    have h1 := (hre p hp).1
    have h2 := (hre p hp).2.2
    linarith
  have hst_nn : 0 ≤ Web.totalStocks s := by
    apply List.sum_nonneg
    intro x hx
    simp only [List.mem_map] at hx
    obtain ⟨p, hp, rfl⟩ := hx
    exact mul_nonneg (hs p hp).1 (hs p hp).2
  have hcr_nn : 0 ≤ Web.totalCrypto c := by
    apply List.sum_nonneg
    intro x hx
    simp only [List.mem_map] at hx
    obtain ⟨p, hp, rfl⟩ := hx
    exact mul_nonneg (hc p hp).1 (hc p hp).2
  have hre_nn : 0 ≤ Web.totalRetirement r := by
    apply List.sum_nonneg
    intro x hx
    simp only [List.mem_map] at hx
    obtain ⟨p, hp, rfl⟩ := hx
    exact hr p hp
  have hta' := hta
  unfold Web.totalAssets at hta'
  have h1 : Web.totalRealEstateEquity re = 0 := by linarith
  have h2 : Web.totalStocks s = 0 := by linarith
  have h3 : Web.totalCrypto c = 0 := by linarith
  have h4 : Web.totalRetirement r = 0 := by linarith
  have hov : Web.overviewInsights re [] = [] := by
    simp [Web.overviewInsights, Web.totalAllObligations, Web.totalDebtsOnly, hmort]
  have hdb : Web.debtBlockInsights re s c r [] = [] := by
    simp [Web.debtBlockInsights]
  have hlev : Web.leverageRateInsights rpow now s [] = [] := by
    simp [Web.leverageRateInsights]
  have hcc : Web.creditCardInsights s c [] = [] := by
    simp [Web.creditCardInsights, Web.creditCards]
  have hra : Web.ratioInsights re s c r [] = [] := by
    simp [Web.ratioInsights, Web.debtToAssetRatio, hta]
  have hco : Web.concentrationInsights s c r = [] := by
    simp [Web.concentrationInsights, Web.totalInvestable, h2, h3, h4]
  have hbu : Web.bufferInsights re s c [] = [] := by
    simp [Web.bufferInsights]
  have hfr : Web.debtFreeInsights re s c r [] = [] := by
    simp [Web.debtFreeInsights, Web.netWorth, Web.totalDebts, Web.totalDebtsOnly, hta]
  have hrt : Web.retirementInsights re s c r [] = [] := by
    simp [Web.retirementInsights, Web.netWorth, Web.totalDebts, Web.totalDebtsOnly, hta]
  have hmet : Web.metricsOf re s c r [] = ⟨0, 0, 0, 0, 0, 0, 0, 0, 0, 0, 0⟩ := by
    unfold Web.metricsOf Web.totalDebts Web.totalDebtsOnly Web.netWorth Web.debtToAssetRatio
      Web.weightedAvgDebtRate Web.totalAllDebtBalance Web.monthlyDebtPayments
      Web.highInterestDebtTotal Web.highInterestDebts Web.goodDebtTotal Web.goodDebtsFromTable
      Web.badDebtTotal Web.badDebts Web.goodDebtMonthly Web.badDebtMonthly
      Web.totalAllObligations
    simp [hta, hmort, hmp]
    all_goals simp [Web.totalDebts, Web.totalDebtsOnly, Web.debtWeightedSum,
      Web.mortgageWeightedSum, Web.goodDebtsFromTable, Web.badDebts, hmort]
  have hwebins : (Web.computeInsights rpow now re s c r []).insights = [] := by
    show Web.overviewInsights re [] ++ Web.debtBlockInsights re s c r [] ++
      Web.leverageRateInsights rpow now s [] ++ Web.creditCardInsights s c [] ++
      Web.ratioInsights re s c r [] ++ Web.concentrationInsights s c r ++
      Web.bufferInsights re s c [] ++ Web.debtFreeInsights re s c r [] ++
      Web.retirementInsights re s c r [] = []
    rw [hov, hdb, hlev, hcc, hra, hco, hbu, hfr, hrt]
    rfl
  have hmains : (Main.generateInsights rpow now re s c r [] none).insights = [] := by
    show Main.overviewInsights re [] ++ Main.debtBlockInsights re s c r [] ++
      Main.leverageRateInsights rpow now s [] ++ Main.creditCardInsights s c [] ++
      Main.ratioInsights re s c r [] ++ Main.concentrationInsights s c r ++
      Main.bufferInsights re s c [] ++ Main.ageRetirementInsights r none ++
      Main.ageCryptoInsights s c r none ++ Main.ageEquityInsights re s c r none ++
      Main.debtFreeInsights re s c r [] ++ Main.retirementInsights re s c r [] = []
    rw [overview_eq, debtBlock_eq, leverageRate_eq, creditCard_eq, ratio_eq, concentration_eq,
      buffer_eq, retirement_eq,
      show Main.ageRetirementInsights r none = [] from rfl,
      show Main.ageCryptoInsights s c r none = [] from rfl,
      show Main.ageEquityInsights re s c r none = [] from rfl,
      show Main.debtFreeInsights re s c r [] = Web.debtFreeInsights re s c r [] from by
        unfold Main.debtFreeInsights Web.debtFreeInsights
        rw [show Main.netWorth = Web.netWorth from rfl]
        split_ifs <;> simp_all [Web.netWorth, Web.totalDebts, Web.totalDebtsOnly, hta]]
    rw [hov, hdb, hlev, hcc, hra, hco, hbu, hfr, hrt]
    rfl
  refine ⟨hwebins, rfl, hmet, hmains, rfl, ?_⟩
  show Main.metricsOf re s c r [] = _
  rw [metricsOf_eq]
  exact hmet

/-- Witness for the amended C5: the entirely empty snapshot. -/
theorem empty_snapshot_zero_witness :
    Web.totalAssets [] [] [] [] = 0 ∧
    (Web.computeInsights (fun _ _ => 0) 0 [] [] [] [] []).insights = [] ∧
    (Web.computeInsights (fun _ _ => 0) 0 [] [] [] [] []).debtPayoff = none ∧
    (Main.generateInsights (fun _ _ => 0) 0 [] [] [] [] [] none).insights = [] := by
  have hta : Web.totalAssets [] [] [] [] = 0 := by
    simp [Web.totalAssets, Web.totalRealEstateEquity, Web.totalStocks, Web.totalCrypto,
      Web.totalRetirement]
  obtain ⟨ha, hb, -, hd, -, -⟩ := empty_snapshot_zero (fun _ _ => 0) 0 [] [] [] []
    (by simp) (by simp) (by simp) (by simp) hta
  exact ⟨hta, ha, hb, hd⟩

/-- Witness for C4 at a concrete input (one mortgaged property, one
credit card, one cheap student loan). -/
theorem good_bad_debt_partition_witness :
    (Web.goodDebtsFromTable [⟨"cc", "credit_card", 500, 20, 25, none⟩,
        ⟨"sl", "student_loan", 1000, 5, 50, none⟩]).length +
      (Web.badDebts [⟨"cc", "credit_card", 500, 20, 25, none⟩,
        ⟨"sl", "student_loan", 1000, 5, 50, none⟩]).length = 2 ∧
    (Web.metricsOf [⟨200, 150, none⟩] [] [] []
        [⟨"cc", "credit_card", 500, 20, 25, none⟩,
         ⟨"sl", "student_loan", 1000, 5, 50, none⟩]).goodDebtTotal +
      (Web.metricsOf [⟨200, 150, none⟩] [] [] []
        [⟨"cc", "credit_card", 500, 20, 25, none⟩,
         ⟨"sl", "student_loan", 1000, 5, 50, none⟩]).badDebtTotal =
      ([(⟨"cc", "credit_card", 500, 20, 25, none⟩ : DebtLiability),
        ⟨"sl", "student_loan", 1000, 5, 50, none⟩].map fun x => x.currentBalance).sum +
      ([(⟨200, 150, none⟩ : RealEstateHolding)].map fun p => p.mortgageBalance).sum :=
  ⟨(good_bad_debt_partition [⟨200, 150, none⟩] [] [] [] _).1,
   (good_bad_debt_partition [⟨200, 150, none⟩] [] [] [] _).2.2.1⟩
